import Mathlib

/-
  Verification development for the TrafegoDNS DNS record reconciliation core.

  The JavaScript sources are shallowly embedded:
  - JavaScript values that flow through the converter, validator and provider
    are modelled by the inductive type JSValue (strings, numbers, booleans,
    plain objects, null and undefined).
  - The Technitium provider (src/providers/technitium/provider.js) is modelled
    as explicit state passing over ProviderState; each method returns an
    Outcome carrying the result or thrown error, the successor state, and a
    trace of method entries and outbound API calls.
  - The public IP resolver (ConfigManager.updatePublicIPs / getPublicIP) is
    modelled as a pure function of the service outcomes, plus a small
    transition system for the single-flight behaviour of concurrent callers.
-/

/-- A JavaScript runtime value, restricted to the shapes that flow through the
embedded code: strings, integers, booleans, plain objects (ordered key-value
lists), null and undefined. -/
inductive JSValue where
  | undefined
  | null
  | str (s : String)
  | num (n : Int)
  | bool (b : Bool)
  | obj (fields : List (String × JSValue))

/-- JavaScript truthiness: undefined, null, the empty string, 0 and false are
falsy, every object is truthy. -/
def truthy : JSValue → Bool
  | .undefined => false
  | .null => false
  | .str s => !(s == "")
  | .num n => !(n == 0)
  | .bool b => b
  | .obj _ => true

/-- JavaScript strict equality.  Two separately constructed objects
are never strictly equal (reference semantics); in every code path embedded
here the two compared objects are distinct allocations, so the object case is
constantly false. -/
def jsStrictEq : JSValue → JSValue → Bool
  | .str a, .str b => decide (a = b)
  | .num a, .num b => decide (a = b)
  | .bool a, .bool b => decide (a = b)
  | .undefined, .undefined => true
  | .null, .null => true
  | _, _ => false

/-- The JavaScript expression a || b. -/
def jsOr (a b : JSValue) : JSValue := if truthy a then a else b

/-- The JavaScript comparison v < 0, for the numeric TTL values that reach the
validator. -/
def jsLtZero : JSValue → Bool
  | .num n => decide (n < 0)
  | _ => false

/-- String interpolation of a JavaScript value, as in template literals. -/
def jsToString : JSValue → String
  | .undefined => "undefined"
  | .null => "null"
  | .str s => s
  | .num n => toString n
  | .bool b => if b then "true" else "false"
  | .obj _ => "[object Object]"

/-- Property access v.k (also optional chaining v?.k): undefined unless v is
an object with key k. -/
def JSValue.getF : JSValue → String → JSValue
  | .obj fields, k =>
    match fields.find? (fun kv => kv.1 == k) with
    | some kv => kv.2
    | none => .undefined
  | _, _ => .undefined

/-- A canonical record object as it appears in the provider code: the fields
read anywhere in the embedded sources.  Absent fields are undefined, matching
JavaScript property access on missing keys. -/
structure DNSRecord where
  id : JSValue := .undefined
  type : JSValue := .undefined
  name : JSValue := .undefined
  content : JSValue := .undefined
  ttl : JSValue := .undefined
  priority : JSValue := .undefined
  zone : JSValue := .undefined
  manage : JSValue := .undefined

/-- Embedding of convertToTechnitiumFormat (src/providers/technitium/converter.js
lines 6-35): build the request parameter object, dispatching the content onto a
type-specific key.  The provider calls it with a single argument, so the zone
parameter is undefined at its call sites. -/
def convertToTechnitiumFormat (record : DNSRecord) (zone : JSValue) : JSValue :=
  let base := [("zone", zone), ("domain", record.name), ("type", record.type),
               ("ttl", jsOr record.ttl (.num 3600))]
  let extra :=
    if jsStrictEq record.type (.str "A") || jsStrictEq record.type (.str "AAAA") then
      [("ipAddress", record.content)]
    else if jsStrictEq record.type (.str "CNAME") || jsStrictEq record.type (.str "ANAME") then
      [("cname", record.content)]
    else if jsStrictEq record.type (.str "TXT") then
      [("text", record.content)]
    else if jsStrictEq record.type (.str "MX") then
      [("exchange", record.content), ("preference", jsOr record.priority (.num 10))]
    else []
  .obj (base ++ extra)

/-- Embedding of convertToStandardFormat (converter.js lines 37-46): read the
list-format record fields name, type, ttl and extract content from rData.
The field holding the original raw record is never read by the embedded code
and is omitted. -/
def convertToStandardFormat (tech : JSValue) : DNSRecord :=
  let rData := tech.getF "rData"
  { id := .str (jsToString (tech.getF "name") ++ "-" ++ jsToString (tech.getF "type") ++ "-" ++
          jsToString (jsOr (rData.getF "ipAddress") (jsOr (rData.getF "cname") (.str "data"))))
    type := tech.getF "type"
    name := tech.getF "name"
    content := jsOr (rData.getF "ipAddress")
               (jsOr (rData.getF "cname") (jsOr (rData.getF "text") rData))
    ttl := tech.getF "ttl" }

/-- Embedding of validateRecord (src/providers/technitium/validator.js lines
6-18).  Returns the thrown error message, or none when validation passes.  On
an apex CNAME the source only emits a warning log, which has no effect on the
result, so no case for it appears here. -/
def validateRecord (record : DNSRecord) : Option String :=
  if !truthy record.type then some "Record type is required"
  else if !truthy record.name then some "Record name is required"
  else if !truthy record.content then some "Record content is required"
  else if truthy record.ttl && jsLtZero record.ttl then some "TTL must be a positive integer"
  else none

/-- Character-level split on the dot character, modelling the split on the
string consisting of one dot used by isValidIPv4. -/
def splitDots : List Char → List (List Char)
  | [] => [[]]
  | c :: cs =>
    match splitDots cs with
    | [] => if c = Char.ofNat 46 then [[], []] else [[c]]
    | p :: ps => if c = Char.ofNat 46 then [] :: p :: ps else (c :: p) :: ps

/-- Decimal value of a digit run, as parseInt computes it on an all-digit
string. -/
def digitsVal (l : List Char) : Nat :=
  match l with
  | [] => 0
  | c :: cs => digitsValAux (c.toNat - 48) cs
where digitsValAux (acc : Nat) : List Char → Nat
  | [] => acc
  | c :: cs => digitsValAux (acc * 10 + (c.toNat - 48)) cs

/-- Embedding of isValidIPv4 (validator.js file, TechnitiumProvider class,
lines 361-370): the regex requires exactly four dot-separated runs of one to
three digits, then every part must parse to at most 255. -/
def isValidIPv4 (ip : String) : Bool :=
  let parts := splitDots ip.toList
  decide (parts.length = 4) &&
  parts.all (fun p => decide (1 ≤ p.length) && decide (p.length ≤ 3) &&
                      p.all Char.isDigit) &&
  parts.all (fun p => decide (digitsVal p ≤ 255))

/-- An event in the execution trace of the Technitium provider: entry into one
of the three mutation methods, or an outbound HTTP call to the backend. -/
inductive Ev where
  | createRecord
  | updateRecord
  | deleteRecord
  | apiAdd
  | apiDel
  | apiList
deriving DecidableEq, Repr

/-- State threaded through the provider methods: the in-process record cache
(this.recordCache.records), a freshness flag for the cache staleness policy of
the base class, the backend zone contents (list-format records as served by
the get endpoint), and an oracle of backend response statuses, consumed one
entry per HTTP call (the empty oracle answers ok to everything). -/
structure ProviderState where
  cacheRecords : List DNSRecord
  fresh : Bool
  backend : List JSValue
  responses : List Bool

/-- Pop the next backend response status from the oracle. -/
def nextResp : List Bool → Bool × List Bool
  | [] => (true, [])
  | b :: bs => (b, bs)

/-- Result of a provider method: the returned value or the thrown error
message, together with the successor state and the emitted trace. -/
inductive Outcome (α : Type) where
  | ok (val : α) (st : ProviderState) (tr : List Ev)
  | err (msg : String) (st : ProviderState) (tr : List Ev)

def Outcome.trace : Outcome α → List Ev
  | .ok _ _ tr => tr
  | .err _ _ tr => tr

def Outcome.stateOf : Outcome α → ProviderState
  | .ok _ st _ => st
  | .err _ st _ => st

def Outcome.isOk : Outcome α → Bool
  | .ok _ _ _ => true
  | .err _ _ _ => false

/-- The successful results of a batch, empty when the batch threw. -/
def Outcome.resultsOf : Outcome (List DNSRecord) → List DNSRecord
  | .ok v _ _ => v
  | .err _ _ _ => []

/-- The type-specific record-data entries of a posted parameter object: every
field except the bookkeeping parameters zone, domain, type, ttl and token. -/
def contentParams : JSValue → List (String × JSValue)
  | .obj fields =>
    fields.filter (fun kv =>
      !(kv.1 == "zone" || kv.1 == "domain" || kv.1 == "type" ||
        kv.1 == "ttl" || kv.1 == "token"))
  | _ => []

/-- Modelled from the spec: the Technitium server itself is not part of this
repository.  Section 6 of the spec describes the REST contract: the add
endpoint receives the posted parameter object and the zone afterwards serves
the stored record in the list format read by convertToStandardFormat, with the
record name under the key name and the type-specific content keys gathered
under rData; the bookkeeping parameters zone, domain, type, ttl and token are
not part of rData. -/
def serverStore (techData : JSValue) : JSValue :=
  .obj [("name", techData.getF "domain"), ("type", techData.getF "type"),
        ("ttl", techData.getF "ttl"), ("rData", .obj (contentParams techData))]

/-- A stored zone record matches a posted delete request when it carries the
posted domain as its name, the posted type, and record data agreeing with
every posted type-specific data field. -/
def recordMatches (b td : JSValue) : Bool :=
  jsStrictEq (b.getF "name") (td.getF "domain") &&
  jsStrictEq (b.getF "type") (td.getF "type") &&
  (contentParams td).all (fun kv => jsStrictEq ((b.getF "rData").getF kv.1) kv.2)

/-- Modelled from the spec: the delete endpoint removes the single record
identified by the posted parameters (spec sections 4.1 and 3: deletes act on
one identified record; the provider posts the domain, the type and the
type-specific record data precisely so the server can match that record).
Records whose name, type or data disagree with the posted parameters are left
in place. -/
def serverDelete (backend : List JSValue) (td : JSValue) : List JSValue :=
  backend.filter (fun b => !(recordMatches b td))

/-- Embedding of refreshRecordCache (provider.js lines 34-49): one list call;
on an ok envelope the cache snapshot is replaced by the converted backend
records, otherwise an error is thrown and the cache is left as it was. -/
def refreshRecordCache (st : ProviderState) : Outcome (List DNSRecord) :=
  let (rok, rs) := nextResp st.responses
  if rok then
    let recs := st.backend.map convertToStandardFormat
    .ok recs { st with cacheRecords := recs, fresh := true, responses := rs } [.apiList]
  else
    .err "Technitium API Error" { st with responses := rs } [.apiList]

/-- Modelled from the spec: getRecordsFromCache lives in the DNSProvider base
class, which is not under src.  Spec section 4.3: serve from the snapshot when
fresh, otherwise refresh first. -/
def getRecordsFromCache (st : ProviderState) : Outcome (List DNSRecord) :=
  if st.fresh then .ok st.cacheRecords st [] else refreshRecordCache st

/-- Embedding of createRecord (provider.js lines 60-70): validate, convert
(the converter is called with a single argument, so its zone parameter is
undefined), post the add call, throw on a non-ok status, then refresh the
cache and return the record that was passed in. -/
def createRecord (st : ProviderState) (record : DNSRecord) : Outcome DNSRecord :=
  match validateRecord record with
  | some e => .err e st [.createRecord]
  | none =>
    let techData := convertToTechnitiumFormat record .undefined
    let (rok, rs) := nextResp st.responses
    if rok then
      let st1 := { st with backend := st.backend ++ [serverStore techData], responses := rs }
      match refreshRecordCache st1 with
      | .ok _ st2 tr2 => .ok record st2 ([.createRecord, .apiAdd] ++ tr2)
      | .err e st2 tr2 => .err e st2 ([.createRecord, .apiAdd] ++ tr2)
    else
      .err "Create failed" { st with responses := rs } [.createRecord, .apiAdd]

/-- Embedding of deleteRecord (provider.js lines 78-96): when no cached record
has the given id, return false without any backend call; otherwise convert the
cached record and post the delete call carrying its parameters (the source
also sets domain to the record name, which equals the domain the converter
already wrote) and, only on an ok status, drop the id from the cache and
return true; a non-ok status returns false without touching the cache. -/
def deleteRecord (st : ProviderState) (id : JSValue) : Outcome Bool :=
  match st.cacheRecords.find? (fun r => jsStrictEq r.id id) with
  | none => .ok false st [.deleteRecord]
  | some record =>
    let techData := convertToTechnitiumFormat record .undefined
    let (rok, rs) := nextResp st.responses
    if rok then
      .ok true { st with
        cacheRecords := st.cacheRecords.filter (fun r => !jsStrictEq r.id id),
        backend := serverDelete st.backend techData,
        responses := rs } [.deleteRecord, .apiDel]
    else
      .ok false { st with responses := rs } [.deleteRecord, .apiDel]

/-- Embedding of updateRecord (provider.js lines 72-76): delete the old id,
then create the new record; the delete result is ignored. -/
def updateRecord (st : ProviderState) (id : JSValue) (record : DNSRecord) : Outcome DNSRecord :=
  match deleteRecord st id with
  | .ok _ st1 tr1 =>
    (match createRecord st1 record with
     | .ok v st2 tr2 => .ok v st2 ([.updateRecord] ++ tr1 ++ tr2)
     | .err e st2 tr2 => .err e st2 ([.updateRecord] ++ tr1 ++ tr2))
  | .err e st1 tr1 => .err e st1 ([.updateRecord] ++ tr1)

/-- Embedding of recordNeedsUpdate (provider.js lines 130-138): content
strict-inequality, or a truthy desired TTL that is strictly unequal to the
existing one. -/
def recordNeedsUpdate (existing newRecord : DNSRecord) : Bool :=
  (!jsStrictEq existing.content newRecord.content) ||
  (truthy newRecord.ttl && !jsStrictEq existing.ttl newRecord.ttl)

/-- The cache lookup predicate of the batch loop (provider.js lines 109-111):
name and type strict-equal to the desired config. -/
def keyMatch (config : DNSRecord) (r : DNSRecord) : Bool :=
  jsStrictEq r.name config.name && jsStrictEq r.type config.type

/-- One iteration of the batch loop of batchEnsureRecords (provider.js lines
107-123), including the per-item catch: a thrown error is logged and the
accumulated results are returned unchanged. -/
def processConfig (st : ProviderState) (results : List DNSRecord) (config : DNSRecord) :
    List DNSRecord × ProviderState × List Ev :=
  match st.cacheRecords.find? (keyMatch config) with
  | none =>
    (match createRecord st config with
     | .ok v st1 tr => (results ++ [v], st1, tr)
     | .err _ st1 tr => (results, st1, tr))
  | some existing =>
    if recordNeedsUpdate existing config then
      match updateRecord st existing.id config with
      | .ok v st1 tr => (results ++ [v], st1, tr)
      | .err _ st1 tr => (results, st1, tr)
    else (results, st, [])

/-- The batch loop over the desired configs, threading cache and results. -/
def batchLoop (st : ProviderState) (results : List DNSRecord) :
    List DNSRecord → List DNSRecord × ProviderState × List Ev
  | [] => (results, st, [])
  | c :: cs =>
    let out1 := processConfig st results c
    let out2 := batchLoop out1.2.1 out1.1 cs
    (out2.1, out2.2.1, out1.2.2 ++ out2.2.2)

/-- Embedding of batchEnsureRecords (provider.js lines 101-125): an empty
input returns immediately; otherwise the cache is read once (outside the
per-item catch, so a failed refresh throws), then each config is processed in
order and the successfully created or updated records are returned. -/
def batchEnsureRecords (st : ProviderState) (recordConfigs : List DNSRecord) :
    Outcome (List DNSRecord) :=
  if recordConfigs.isEmpty then .ok [] st []
  else
    match getRecordsFromCache st with
    | .err e st1 tr1 => .err e st1 tr1
    | .ok _ st1 tr1 =>
      let out := batchLoop st1 [] recordConfigs
      .ok out.1 out.2.1 (tr1 ++ out.2.2)

/-- The cached public IP tuple of ConfigManager (this.ipCache). -/
structure IpCache where
  ipv4 : JSValue
  ipv6 : JSValue
  lastCheck : Int

/-- The environment of one execution of updatePublicIPs: the PUBLIC_IP and
PUBLIC_IPV6 environment variables, the outcomes of the three external lookup
services (none meaning the request failed or timed out), and the current
time. -/
structure IpFetchEnv where
  envIPv4 : JSValue
  envIPv6 : JSValue
  primaryIPv4 : Option String
  fallbackIPv4 : Option String
  serviceIPv6 : Option String
  now : Int

/-- Embedding of the body of updatePublicIPs (ConfigManager, lines 308-369),
run when no update is in flight: take the env variable if truthy, otherwise
try api.ipify.org then ifconfig.me for IPv4 and api6.ipify.org once for IPv6;
whatever the outcomes, the cache is replaced by a fresh object built from the
local ipv4 and ipv6 variables.  Returns the new cache (which is also the
return value of the method) and the list of outbound calls made. -/
def updatePublicIPs (e : IpFetchEnv) (_cache : IpCache) : IpCache × List String :=
  let v4 :=
    if truthy e.envIPv4 then (e.envIPv4, ([] : List String))
    else
      match e.primaryIPv4 with
      | some s => (JSValue.str s, ["api.ipify.org"])
      | none =>
        match e.fallbackIPv4 with
        | some s => (JSValue.str s, ["api.ipify.org", "ifconfig.me/ip"])
        | none => (e.envIPv4, ["api.ipify.org", "ifconfig.me/ip"])
  let v6 :=
    if truthy e.envIPv6 then (e.envIPv6, ([] : List String))
    else
      match e.serviceIPv6 with
      | some s => (JSValue.str s, ["api6.ipify.org"])
      | none => (e.envIPv6, ["api6.ipify.org"])
  ({ ipv4 := v4.1, ipv6 := v6.1, lastCheck := e.now }, v4.2 ++ v6.2)

/-- Embedding of getPublicIP (ConfigManager, lines 275-285): serve the cached
IPv4 when it is truthy and younger than the refresh interval, otherwise run
updatePublicIPs and return whatever the cache then holds.  Result: the
returned value, the cache afterwards, and the outbound calls made. -/
def getPublicIP (e : IpFetchEnv) (ipRefreshInterval : Int) (cache : IpCache) :
    JSValue × IpCache × List String :=
  if truthy cache.ipv4 && decide (e.now - cache.lastCheck < ipRefreshInterval) then
    (cache.ipv4, cache, [])
  else
    let out := updatePublicIPs e cache
    (out.1.ipv4, out.1, out.2)

/-- A caller of updatePublicIPs in the single-flight scenario.  The flag check
at the top of updatePublicIPs runs synchronously, before any suspension point;
a caller that invokes the method while a refresh is in flight therefore
observes the flag set and enters the wait loop, modelled by the waiting state.
The refresher holds the cache object it will install, and a finished caller
holds the cache it returned. -/
inductive SFProc where
  | fetching (result : JSValue)
  | waiting
  | done (res : JSValue)

/-- Shared state of the single-flight scenario: the module-level
ipUpdateInProgress flag, this.ipCache, a counter of outbound call sequences
started, and the callers. -/
structure SFState where
  flag : Bool
  cache : JSValue
  fetchCount : Nat
  procs : List SFProc

/-- Cooperative interleaving semantics of updatePublicIPs under the
single-flight latch.  commit: the in-flight refresher resumes, installs its
result into this.ipCache, clears the flag and returns the cache (one
synchronous segment in the source, lines 345-368).  wake: a waiting caller
observes the cleared flag and returns this.ipCache (lines 293-304).  Polls
that observe the flag still set change nothing and are omitted.  No rule
starts a new outbound call sequence: a caller whose entry check ran while the
refresh was in flight can only wait. -/
inductive SFStep : SFState → SFState → Prop where
  | commit (s : SFState) (i : Nat) (v : JSValue)
      (h : s.procs[i]? = some (.fetching v)) :
      SFStep s { flag := false, cache := v, fetchCount := s.fetchCount,
                 procs := s.procs.set i (.done v) }
  | wake (s : SFState) (i : Nat)
      (h : s.procs[i]? = some .waiting) (hf : s.flag = false) :
      SFStep s { s with procs := s.procs.set i (.done s.cache) }

/-- Reachability in the single-flight transition system. -/
def SFReach : SFState → SFState → Prop := Relation.ReflTransGen SFStep

/-- Initial state of the single-flight scenario: the flag is set, one refresh
(which will install v) is in flight, and n callers have invoked
updatePublicIPs while it was in flight, so each sits in the wait loop. -/
def sfInit (v c0 : JSValue) (k n : Nat) : SFState :=
  { flag := true, cache := c0, fetchCount := k,
    procs := .fetching v :: List.replicate n .waiting }

/-- A provider state with an empty, stale cache over an empty zone, every
backend call answered ok. -/
def emptyStaleState : ProviderState :=
  { cacheRecords := [], fresh := false, backend := [], responses := [] }

/-- A provider state with an empty, fresh cache over an empty zone, every
backend call answered ok. -/
def emptyFreshState : ProviderState :=
  { cacheRecords := [], fresh := true, backend := [], responses := [] }

/-- An MX desired spec used to exercise the batch convergence on a record type
whose content does not survive the wire round trip. -/
def mxSpec : DNSRecord :=
  { type := .str "MX", name := .str "mail.example.com",
    content := .str "mx1.example.com", ttl := .num 300 }

/-- The A-record spec of the example scenario in the spec. -/
def appSpec : DNSRecord :=
  { type := .str "A", name := .str "app.example.com",
    content := .str "1.2.3.4", ttl := .num 300 }

/-- A cached record sharing the identity key of appSpec but with different
content. -/
def staleAppRecord : DNSRecord :=
  { id := .str "app.example.com-A-9.9.9.9", type := .str "A",
    name := .str "app.example.com", content := .str "9.9.9.9", ttl := .num 300 }

/-- A provider state whose fresh cache holds staleAppRecord. -/
def staleAppState : ProviderState :=
  { cacheRecords := [staleAppRecord], fresh := true,
    backend := [], responses := [] }

/-- First item of the three-spec partial-batch scenario. -/
def batchItem1 : DNSRecord :=
  { type := .str "A", name := .str "one.example.com", content := .str "1.1.1.1" }

/-- Second item of the three-spec partial-batch scenario: its content is
missing, so validation rejects it. -/
def batchItem2 : DNSRecord :=
  { type := .str "A", name := .str "two.example.com", content := .undefined }

/-- Third item of the three-spec partial-batch scenario. -/
def batchItem3 : DNSRecord :=
  { type := .str "A", name := .str "three.example.com", content := .str "3.3.3.3" }

/-- A provider state whose first backend call fails, used to show that a
backend error on one item does not abort the rest of the batch. -/
def failFirstState : ProviderState :=
  { cacheRecords := [], fresh := true, backend := [], responses := [false] }

/-- A desired spec carrying manage set to false. -/
def unmanagedSpec : DNSRecord :=
  { type := .str "A", name := .str "x.example.com",
    content := .str "1.2.3.4", manage := .bool false }

/-- A record used for the round-trip counterexample. -/
def roundTripRec : DNSRecord :=
  { type := .str "A", name := .str "app.example.com",
    content := .str "1.2.3.4", ttl := .num 300 }

/-- An apex CNAME spec: its name equals its zone. -/
def apexCnameSpec : DNSRecord :=
  { type := .str "CNAME", name := .str "example.com",
    content := .str "target.example.net", zone := .str "example.com" }

/-- An A-record spec whose content is not a valid IPv4 address. -/
def badIpSpec : DNSRecord :=
  { type := .str "A", name := .str "bad.example.com", content := .str "999.1.1.1" }

/-- Fetch environment in which both IPv4 services fail and nothing is
configured through environment variables. -/
def bothFailEnv : IpFetchEnv :=
  { envIPv4 := .undefined, envIPv6 := .undefined, primaryIPv4 := none,
    fallbackIPv4 := none, serviceIPv6 := none, now := 7200000 }

/-- A stale IP cache holding a previously resolved IPv4 address. -/
def staleIpCache : IpCache :=
  { ipv4 := .str "1.2.3.4", ipv6 := .undefined, lastCheck := 0 }

/-- The cache object installed by the refresher in the single-flight witness
run. -/
def sfResult : JSValue := .obj [("ipv4", .str "5.6.7.8")]

/-- Final state of the concrete single-flight run: the refresher committed and
the one waiting caller woke. -/
def sfFinal : SFState :=
  { flag := false, cache := sfResult, fetchCount := 1,
    procs := [.done sfResult, .done sfResult] }

/-- The backend record stored by the add endpoint for a desired record, as the
provider posts it (converter called with an undefined zone argument). -/
def echoRecord (c : DNSRecord) : JSValue :=
  serverStore (convertToTechnitiumFormat c JSValue.undefined)

/-- The parameter object a deleteRecord call posts for the cached image of a
previously stored record: the cached record is the converted echo, and the
provider converts it back to wire parameters for the delete request. -/
def deleteParams (sp : DNSRecord) : JSValue :=
  convertToTechnitiumFormat (convertToStandardFormat (echoRecord sp)) JSValue.undefined

/-- Backend-level identity key match: the list-format record carries the given
name and type. -/
def bkeyIs (nm ty : JSValue) (b : JSValue) : Bool :=
  jsStrictEq (b.getF "name") nm && jsStrictEq (b.getF "type") ty

/-- The backend zone has converged for a desired spec: the first record under
the identity key of the spec, once converted, needs no update. -/
def KeyConverged (backend : List JSValue) (c : DNSRecord) : Prop :=
  ∃ b, backend.find? (bkeyIs c.name c.type) = some b ∧
       recordNeedsUpdate (convertToStandardFormat b) c = false

/-- The record types whose content survives the echo through the backend wire
format: the type-specific request key is one of the keys that
convertToStandardFormat reads back out of rData. -/
def goodType (t : JSValue) : Prop :=
  t = JSValue.str "A" ∨ t = JSValue.str "AAAA" ∨ t = JSValue.str "CNAME" ∨
  t = JSValue.str "ANAME" ∨ t = JSValue.str "TXT"

/-- A desired spec of a round-trippable type with nonempty string name and
content and a ttl that is either falsy or a non-negative number. -/
def GoodSpec (c : DNSRecord) : Prop :=
  goodType c.type ∧
  (∃ s, c.name = JSValue.str s ∧ s ≠ "") ∧
  (∃ s, c.content = JSValue.str s ∧ s ≠ "") ∧
  (truthy c.ttl = false ∨ ∃ n : Int, 0 ≤ n ∧ c.ttl = JSValue.num n)

/-- Two desired specs have distinct identity keys under strict equality. -/
def KeyNe (a b : DNSRecord) : Prop :=
  (jsStrictEq a.name b.name && jsStrictEq a.type b.type) = false

/-- The synthesized ids of the converted backend records are pairwise
distinct. -/
def DistinctIds (l : List JSValue) : Prop :=
  l.Pairwise (fun a b => (convertToStandardFormat a).id ≠ (convertToStandardFormat b).id)

/-- Invariant maintained along the first convergence run: the cache is fresh
and mirrors the backend, every response succeeds, the backend consists of the
echoes of well-formed specs with pairwise-distinct identity keys, it splits
into survivors of the initial backend followed by echoes of a subsequence of
the processed specs, and every processed spec has converged. -/
def ReconInv (init0 : List JSValue) (st : ProviderState)
    (done : List DNSRecord) : Prop :=
  st.fresh = true ∧
  st.responses = [] ∧
  st.cacheRecords = st.backend.map convertToStandardFormat ∧
  (∃ B : List DNSRecord, st.backend = B.map echoRecord ∧
    (∀ b ∈ B, GoodSpec b) ∧ B.Pairwise KeyNe) ∧
  (∃ (surv : List JSValue) (E : List DNSRecord),
    st.backend = surv ++ E.map echoRecord ∧
    surv.Sublist init0 ∧ E.Sublist done) ∧
  (∀ c ∈ done, KeyConverged st.backend c)

theorem jsStrictEq_eq_of_true {x y : JSValue} (h : jsStrictEq x y = true) : x = y := by
  cases x <;> cases y <;> simp_all [jsStrictEq]

theorem jsStrictEq_str_self (s : String) : jsStrictEq (.str s) (.str s) = true := by
  simp [jsStrictEq]

theorem jsStrictEq_comm (x y : JSValue) : jsStrictEq x y = jsStrictEq y x := by
  cases x <;> cases y <;> simp [jsStrictEq] <;> exact ⟨Eq.symm, Eq.symm⟩

theorem deleteRecord_eq_of_none {st : ProviderState} {id : JSValue}
    (hf : st.cacheRecords.find? (fun r => jsStrictEq r.id id) = none) :
    deleteRecord st id = .ok false st [.deleteRecord] := by
  unfold deleteRecord
  rw [hf]

theorem deleteRecord_eq_of_some_ok {st : ProviderState} {id : JSValue} {rec0 : DNSRecord}
    {rs : List Bool}
    (hf : st.cacheRecords.find? (fun r => jsStrictEq r.id id) = some rec0)
    (hnr : nextResp st.responses = (true, rs)) :
    deleteRecord st id = .ok true
      { st with cacheRecords := st.cacheRecords.filter (fun r => !jsStrictEq r.id id),
                backend := serverDelete st.backend (convertToTechnitiumFormat rec0 .undefined),
                responses := rs } [.deleteRecord, .apiDel] := by
  unfold deleteRecord
  rw [hf, hnr]
  rfl

theorem deleteRecord_eq_of_some_fail {st : ProviderState} {id : JSValue} {rec0 : DNSRecord}
    {rs : List Bool}
    (hf : st.cacheRecords.find? (fun r => jsStrictEq r.id id) = some rec0)
    (hnr : nextResp st.responses = (false, rs)) :
    deleteRecord st id = .ok false { st with responses := rs } [.deleteRecord, .apiDel] := by
  unfold deleteRecord
  rw [hf, hnr]
  rfl

theorem createRecord_eq_of_invalid {st : ProviderState} {c : DNSRecord} {e : String}
    (hv : validateRecord c = some e) :
    createRecord st c = .err e st [.createRecord] := by
  unfold createRecord
  rw [hv]

theorem createRecord_eq_of_valid_ok {st : ProviderState} {c : DNSRecord} {rs rs2 : List Bool}
    (hv : validateRecord c = none)
    (hnr : nextResp st.responses = (true, rs))
    (hnr2 : nextResp rs = (true, rs2)) :
    createRecord st c = .ok c
      { cacheRecords := (st.backend ++ [echoRecord c]).map convertToStandardFormat,
        fresh := true,
        backend := st.backend ++ [echoRecord c],
        responses := rs2 } [.createRecord, .apiAdd, .apiList] := by
  unfold createRecord refreshRecordCache echoRecord
  rw [hv, hnr]
  simp only [hnr2]
  rfl

theorem createRecord_eq_of_valid_fail {st : ProviderState} {c : DNSRecord} {rs : List Bool}
    (hv : validateRecord c = none)
    (hnr : nextResp st.responses = (false, rs)) :
    createRecord st c = .err "Create failed" { st with responses := rs }
      [.createRecord, .apiAdd] := by
  unfold createRecord
  rw [hv, hnr]
  rfl

theorem refreshRecordCache_trace (st : ProviderState) :
    (refreshRecordCache st).trace = [Ev.apiList] := by
  unfold refreshRecordCache
  rcases nextResp st.responses with ⟨rok, rs⟩
  cases rok <;> simp [Outcome.trace]

theorem apiAdd_mem_createRecord_trace (st : ProviderState) (c : DNSRecord)
    (hv : validateRecord c = none) : Ev.apiAdd ∈ (createRecord st c).trace := by
  unfold createRecord
  simp only [hv]
  rcases nextResp st.responses with ⟨rok, rs⟩
  cases rok
  · simp [Outcome.trace]
  · split
    · split <;> simp [Outcome.trace]
    · simp [Outcome.trace]

/-- C3, counterexample: converting the concrete A record
(app.example.com, A, 1.2.3.4, 300) to the Technitium wire format and back does
not reproduce the original: the round trip loses the name and the content
(both come back undefined), because the request format stores the name under
the key domain and the content under a type-specific top-level key, while
convertToStandardFormat reads the keys name and rData of the list format. -/
theorem c3_counterexample :
    (convertToStandardFormat (convertToTechnitiumFormat roundTripRec (.str "example.com"))).name
      = JSValue.undefined ∧
    roundTripRec.name = JSValue.str "app.example.com" ∧
    (convertToStandardFormat (convertToTechnitiumFormat roundTripRec (.str "example.com"))).content
      = JSValue.undefined ∧
    roundTripRec.content = JSValue.str "1.2.3.4" ∧
    ¬((convertToStandardFormat (convertToTechnitiumFormat roundTripRec (.str "example.com"))).name
        = roundTripRec.name ∧
      (convertToStandardFormat (convertToTechnitiumFormat roundTripRec (.str "example.com"))).type
        = roundTripRec.type ∧
      (convertToStandardFormat (convertToTechnitiumFormat roundTripRec (.str "example.com"))).content
        = roundTripRec.content ∧
      (convertToStandardFormat (convertToTechnitiumFormat roundTripRec (.str "example.com"))).ttl
        = roundTripRec.ttl) := by
  refine ⟨rfl, rfl, rfl, rfl, ?_⟩
  rintro ⟨h1, -, -, -⟩
  rw [show (convertToStandardFormat (convertToTechnitiumFormat roundTripRec (.str "example.com"))).name
        = JSValue.undefined from rfl,
      show roundTripRec.name = JSValue.str "app.example.com" from rfl] at h1
  exact JSValue.noConfusion h1

/-- C3, amended: for every record and zone, the canonical-to-wire-to-canonical
round trip preserves the type, and the ttl exactly when the original ttl is
truthy (a falsy ttl comes back as the default 3600); the name and the content
are not preserved: both come back undefined, for every supported and
unsupported type alike. -/
theorem c3_amended_roundtrip (record : DNSRecord) (zone : JSValue) :
    (convertToStandardFormat (convertToTechnitiumFormat record zone)).type = record.type ∧
    (convertToStandardFormat (convertToTechnitiumFormat record zone)).name = JSValue.undefined ∧
    (convertToStandardFormat (convertToTechnitiumFormat record zone)).content = JSValue.undefined ∧
    (truthy record.ttl = true →
      (convertToStandardFormat (convertToTechnitiumFormat record zone)).ttl = record.ttl) ∧
    (truthy record.ttl = false →
      (convertToStandardFormat (convertToTechnitiumFormat record zone)).ttl = JSValue.num 3600) := by
  unfold convertToTechnitiumFormat
  split
  · exact ⟨rfl, rfl, rfl, fun h => by show jsOr record.ttl (.num 3600) = _; simp [jsOr, h],
      fun h => by show jsOr record.ttl (.num 3600) = _; simp [jsOr, h]⟩
  · split
    · exact ⟨rfl, rfl, rfl, fun h => by show jsOr record.ttl (.num 3600) = _; simp [jsOr, h],
        fun h => by show jsOr record.ttl (.num 3600) = _; simp [jsOr, h]⟩
    · split
      · exact ⟨rfl, rfl, rfl, fun h => by show jsOr record.ttl (.num 3600) = _; simp [jsOr, h],
          fun h => by show jsOr record.ttl (.num 3600) = _; simp [jsOr, h]⟩
      · split
        · exact ⟨rfl, rfl, rfl, fun h => by show jsOr record.ttl (.num 3600) = _; simp [jsOr, h],
            fun h => by show jsOr record.ttl (.num 3600) = _; simp [jsOr, h]⟩
        · exact ⟨rfl, rfl, rfl, fun h => by show jsOr record.ttl (.num 3600) = _; simp [jsOr, h],
            fun h => by show jsOr record.ttl (.num 3600) = _; simp [jsOr, h]⟩

/-- C3, witness: the amended round-trip theorem applied to the concrete record
roundTripRec, whose ttl 300 is truthy and survives the round trip. -/
theorem c3_witness :
    truthy roundTripRec.ttl = true ∧
    (convertToStandardFormat (convertToTechnitiumFormat roundTripRec (.str "example.com"))).ttl
      = roundTripRec.ttl :=
  ⟨rfl, (c3_amended_roundtrip roundTripRec (.str "example.com")).2.2.2.1 rfl⟩

/-- C4, counterexample: the concrete apex CNAME spec (name equal to zone
example.com) passes validateRecord, and createRecord reaches the outbound add
call for it, refuting that such a spec is rejected before any network call. -/
theorem c4_counterexample :
    apexCnameSpec.name = apexCnameSpec.zone ∧
    apexCnameSpec.type = JSValue.str "CNAME" ∧
    validateRecord apexCnameSpec = none ∧
    Ev.apiAdd ∈ (createRecord emptyStaleState apexCnameSpec).trace := by
  refine ⟨rfl, rfl, rfl, ?_⟩
  exact apiAdd_mem_createRecord_trace emptyStaleState apexCnameSpec rfl

/-- C4, amended: a CNAME spec whose name equals the zone name is not rejected
by the validateRecord used by createRecord: the source only logs a warning for
the apex case, so any CNAME spec with truthy name, content and a
non-negative-or-falsy ttl passes validation, and createRecord proceeds to
issue the backend add call. -/
theorem c4_amended_apex_cname (st : ProviderState) (c : DNSRecord)
    (hty : c.type = JSValue.str "CNAME") (hname : truthy c.name = true)
    (_hapex : c.name = c.zone) (hcontent : truthy c.content = true)
    (httl : (truthy c.ttl && jsLtZero c.ttl) = false) :
    validateRecord c = none ∧ Ev.apiAdd ∈ (createRecord st c).trace := by
  have hv : validateRecord c = none := by
    have htyt : truthy c.type = true := by rw [hty]; rfl
    cases h4 : truthy c.ttl <;> cases h5 : jsLtZero c.ttl <;>
      simp_all [validateRecord]
  exact ⟨hv, apiAdd_mem_createRecord_trace st c hv⟩

/-- C4, witness: the amended theorem applied to apexCnameSpec in the empty
stale provider state. -/
theorem c4_witness :
    validateRecord apexCnameSpec = none ∧
    Ev.apiAdd ∈ (createRecord emptyStaleState apexCnameSpec).trace :=
  c4_amended_apex_cname emptyStaleState apexCnameSpec rfl rfl rfl rfl rfl

/-- C5, counterexample: the A-record spec with content 999.1.1.1 is not
rejected: isValidIPv4 would reject that content, but the validateRecord
called by createRecord performs no IP syntax check, so validation passes and
the outbound add call is reached. -/
theorem c5_counterexample :
    badIpSpec.content = JSValue.str "999.1.1.1" ∧
    isValidIPv4 "999.1.1.1" = false ∧
    validateRecord badIpSpec = none ∧
    Ev.apiAdd ∈ (createRecord emptyStaleState badIpSpec).trace := by
  refine ⟨rfl, by decide, rfl, ?_⟩
  exact apiAdd_mem_createRecord_trace emptyStaleState badIpSpec rfl

/-- C5, amended: isValidIPv4 (defined on the TechnitiumProvider class in the
validator file) does reject 999.1.1.1, but the module-level validateRecord
that createRecord calls performs no IPv4 syntax check at all: every A-record
spec with truthy name and content and an acceptable ttl passes validation and
reaches the outbound add call, whatever its content. -/
theorem c5_amended_validation (st : ProviderState) (c : DNSRecord)
    (hty : c.type = JSValue.str "A") (hname : truthy c.name = true)
    (hcontent : truthy c.content = true)
    (httl : (truthy c.ttl && jsLtZero c.ttl) = false) :
    isValidIPv4 "999.1.1.1" = false ∧
    validateRecord c = none ∧ Ev.apiAdd ∈ (createRecord st c).trace := by
  have hv : validateRecord c = none := by
    have htyt : truthy c.type = true := by rw [hty]; rfl
    cases h4 : truthy c.ttl <;> cases h5 : jsLtZero c.ttl <;>
      simp_all [validateRecord]
  exact ⟨by decide, hv, apiAdd_mem_createRecord_trace st c hv⟩

/-- C5, witness: the amended theorem applied to badIpSpec in the empty stale
provider state. -/
theorem c5_witness :
    validateRecord badIpSpec = none ∧
    Ev.apiAdd ∈ (createRecord emptyStaleState badIpSpec).trace :=
  (c5_amended_validation emptyStaleState badIpSpec rfl rfl rfl rfl).2

/-- C9, counterexample: with the previously cached address 1.2.3.4 and both
IPv4 lookup services failing, updatePublicIPs replaces the cache with an
object whose ipv4 is undefined, and a getPublicIP caller on the stale cache
receives undefined rather than the last known cached value: the previously
cached address is lost by the failed refresh. -/
theorem c9_counterexample :
    staleIpCache.ipv4 = JSValue.str "1.2.3.4" ∧
    (updatePublicIPs bothFailEnv staleIpCache).1.ipv4 = JSValue.undefined ∧
    (getPublicIP bothFailEnv 3600000 staleIpCache).1 = JSValue.undefined :=
  ⟨rfl, rfl, rfl⟩

/-- C9, amended: when the primary IPv4 service fails (and no environment
override is set) the fallback service is indeed tried, and when both fail the
resolver still returns without throwing; but the cache is then overwritten
with the falsy environment value (undefined), so callers receive that rather
than the previously cached address. -/
theorem c9_amended_fallback (e : IpFetchEnv) (cache : IpCache)
    (henv : truthy e.envIPv4 = false) (hprim : e.primaryIPv4 = none) :
    "ifconfig.me/ip" ∈ (updatePublicIPs e cache).2 ∧
    (e.fallbackIPv4 = none → (updatePublicIPs e cache).1.ipv4 = e.envIPv4) := by
  unfold updatePublicIPs
  rw [henv, hprim]
  cases hf : e.fallbackIPv4 <;> simp

/-- C9, witness: the amended theorem applied to the both-services-fail
environment over the stale cache. -/
theorem c9_amended_witness :
    "ifconfig.me/ip" ∈ (updatePublicIPs bothFailEnv staleIpCache).2 ∧
    (updatePublicIPs bothFailEnv staleIpCache).1.ipv4 = bothFailEnv.envIPv4 :=
  ⟨(c9_amended_fallback bothFailEnv staleIpCache rfl rfl).1,
   (c9_amended_fallback bothFailEnv staleIpCache rfl rfl).2 rfl⟩

/-- C10: deleteRecord on an id absent from the record cache returns false
with no outbound call and an unchanged state; when it returns true the cache
entry was removed and the backend had answered ok; whenever it returns false
the cache is left unchanged, so a cache entry is removed only on an ok
response. -/
theorem c10_delete_noop (st : ProviderState) (id : JSValue) :
    (st.cacheRecords.find? (fun r => jsStrictEq r.id id) = none →
      deleteRecord st id = .ok false st [.deleteRecord]) ∧
    (∀ st1 tr, deleteRecord st id = .ok true st1 tr →
      st1.cacheRecords = st.cacheRecords.filter (fun r => !jsStrictEq r.id id) ∧
      (nextResp st.responses).1 = true) ∧
    (∀ b st1 tr, deleteRecord st id = .ok b st1 tr → b = false →
      st1.cacheRecords = st.cacheRecords) := by
  refine ⟨fun hnone => deleteRecord_eq_of_none hnone, ?_, ?_⟩
  · intro st1 tr h
    rcases hnr : nextResp st.responses with ⟨rok, rs⟩
    cases hf : st.cacheRecords.find? (fun r => jsStrictEq r.id id) with
    | none =>
      rw [deleteRecord_eq_of_none hf] at h
      cases h
    | some rec0 =>
      cases rok with
      | false =>
        rw [deleteRecord_eq_of_some_fail hf hnr] at h
        cases h
      | true =>
        rw [deleteRecord_eq_of_some_ok hf hnr] at h
        cases h
        exact ⟨rfl, rfl⟩
  · intro b st1 tr h hb
    rcases hnr : nextResp st.responses with ⟨rok, rs⟩
    cases hf : st.cacheRecords.find? (fun r => jsStrictEq r.id id) with
    | none =>
      rw [deleteRecord_eq_of_none hf] at h
      cases h
      rfl
    | some rec0 =>
      cases rok with
      | false =>
        rw [deleteRecord_eq_of_some_fail hf hnr] at h
        cases h
        rfl
      | true =>
        rw [deleteRecord_eq_of_some_ok hf hnr] at h
        cases h
        cases hb

/-- C10, witness: deleting an id that no cached record carries, in the empty
fresh state, returns false with no outbound call and an unchanged state. -/
theorem c10_witness :
    deleteRecord emptyFreshState (.str "missing-id")
      = .ok false emptyFreshState [.deleteRecord] :=
  (c10_delete_noop emptyFreshState (.str "missing-id")).1 rfl

theorem deleteRecord_count_update (st : ProviderState) (id : JSValue) :
    (deleteRecord st id).trace.count Ev.updateRecord = 0 := by
  unfold deleteRecord
  cases st.cacheRecords.find? (fun r => jsStrictEq r.id id)
  · rfl
  · rcases nextResp st.responses with ⟨rok, rs⟩
    cases rok <;> rfl

theorem createRecord_count_update (st : ProviderState) (c : DNSRecord) :
    (createRecord st c).trace.count Ev.updateRecord = 0 := by
  unfold createRecord
  cases validateRecord c
  · rcases nextResp st.responses with ⟨rok, rs⟩
    cases rok
    · rfl
    · have ht := refreshRecordCache_trace
        { st with backend := st.backend ++ [serverStore (convertToTechnitiumFormat c JSValue.undefined)],
                  responses := rs }
      cases href : refreshRecordCache
        { st with backend := st.backend ++ [serverStore (convertToTechnitiumFormat c JSValue.undefined)],
                  responses := rs } <;>
        rw [href] at ht <;>
        simp [Outcome.trace] at ht <;>
        simp [href, Outcome.trace, ht]
  · rfl

theorem updateRecord_count_update (st : ProviderState) (id : JSValue) (c : DNSRecord) :
    (updateRecord st id c).trace.count Ev.updateRecord = 1 := by
  unfold updateRecord
  have hd := deleteRecord_count_update st id
  cases hdel : deleteRecord st id with
  | ok b st1 tr1 =>
    rw [hdel] at hd
    simp only [Outcome.trace] at hd
    have hc := createRecord_count_update st1 c
    cases hcr : createRecord st1 c with
    | ok v st2 tr2 =>
      rw [hcr] at hc
      simp only [Outcome.trace] at hc
      simp [hcr, Outcome.trace, List.count_append, hd, hc, List.count_cons]
    | err e st2 tr2 =>
      rw [hcr] at hc
      simp only [Outcome.trace] at hc
      simp [hcr, Outcome.trace, List.count_append, hd, hc, List.count_cons]
  | err e st1 tr1 =>
    rw [hdel] at hd
    simp only [Outcome.trace] at hd
    simp [Outcome.trace, List.count_append, hd, List.count_cons]

theorem batchLoop_singleton (st : ProviderState) (res : List DNSRecord) (c : DNSRecord) :
    batchLoop st res [c] =
      ((processConfig st res c).1, (processConfig st res c).2.1,
       (processConfig st res c).2.2 ++ []) := rfl

theorem batchEnsureRecords_fresh_singleton {st : ProviderState} (c : DNSRecord)
    (hfresh : st.fresh = true) :
    batchEnsureRecords st [c] =
      .ok (processConfig st [] c).1 (processConfig st [] c).2.1
          ((processConfig st [] c).2.2 ++ []) := by
  unfold batchEnsureRecords getRecordsFromCache
  rw [hfresh]
  rfl

theorem processConfig_update {st : ProviderState} {c r : DNSRecord} {res : List DNSRecord}
    (hfind : st.cacheRecords.find? (keyMatch c) = some r)
    (hup : recordNeedsUpdate r c = true) :
    (processConfig st res c).2.2 = (updateRecord st r.id c).trace := by
  unfold processConfig
  simp only [hfind]
  rw [if_pos hup]
  cases updateRecord st r.id c <;> rfl

theorem processConfig_skip {st : ProviderState} {c r : DNSRecord} {res : List DNSRecord}
    (hfind : st.cacheRecords.find? (keyMatch c) = some r)
    (hup : recordNeedsUpdate r c = false) :
    processConfig st res c = (res, st, []) := by
  unfold processConfig
  simp only [hfind]
  rw [if_neg (by rw [hup]; exact Bool.false_ne_true)]

/-- C2: when a desired spec finds a cached record under its identity key in a
fresh cache, the batch issues exactly one updateRecord call if the content
strictly differs or a truthy desired ttl strictly differs from the cached
ttl; and when content and ttl are strictly equal the batch issues no call at
all and leaves the state untouched. -/
theorem c2_update_iff_changed (st : ProviderState) (c r : DNSRecord)
    (hfresh : st.fresh = true)
    (hfind : st.cacheRecords.find? (keyMatch c) = some r) :
    ((jsStrictEq r.content c.content = false ∨
      (truthy c.ttl = true ∧ jsStrictEq r.ttl c.ttl = false)) →
      (batchEnsureRecords st [c]).trace.count Ev.updateRecord = 1) ∧
    ((jsStrictEq r.content c.content = true ∧ jsStrictEq r.ttl c.ttl = true) →
      batchEnsureRecords st [c] = .ok [] st []) := by
  constructor
  · intro hdiff
    have hup : recordNeedsUpdate r c = true := by
      rcases hdiff with h | ⟨h1, h2⟩ <;> simp [recordNeedsUpdate, *]
    rw [batchEnsureRecords_fresh_singleton c hfresh]
    simp only [Outcome.trace, processConfig_update hfind hup, List.append_nil]
    exact updateRecord_count_update st r.id c
  · rintro ⟨h1, h2⟩
    have hup : recordNeedsUpdate r c = false := by
      simp [recordNeedsUpdate, h1, h2]
    rw [batchEnsureRecords_fresh_singleton c hfresh, processConfig_skip hfind hup]
    rfl

/-- C2, witness: the cached record for app.example.com holds 9.9.9.9 while
the desired spec holds 1.2.3.4, and the batch over that one spec performs
exactly one updateRecord call. -/
theorem c2_witness :
    (batchEnsureRecords staleAppState [appSpec]).trace.count Ev.updateRecord = 1 :=
  (c2_update_iff_changed staleAppState appSpec staleAppRecord rfl rfl).1 (Or.inl rfl)

/-- C6: per-item failures never abort a batch: with a fresh cache the batch
always returns normally whatever the configs and backend responses; in the
concrete three-spec run whose second item fails validation, items one and
three are still created and returned; and in a run whose first backend call
fails, the second item is still created and returned. -/
theorem c6_partial_batch :
    (∀ (st : ProviderState) (cs : List DNSRecord), st.fresh = true →
      (batchEnsureRecords st cs).isOk = true) ∧
    (batchEnsureRecords emptyFreshState [batchItem1, batchItem2, batchItem3]).resultsOf
      = [batchItem1, batchItem3] ∧
    validateRecord batchItem2 = some "Record content is required" ∧
    (batchEnsureRecords failFirstState [batchItem1, batchItem3]).resultsOf = [batchItem3] := by
  refine ⟨?_, rfl, rfl, rfl⟩
  intro st cs h
  unfold batchEnsureRecords getRecordsFromCache
  rw [h]
  cases cs.isEmpty <;> rfl

/-- C6, witness: the no-throw component applied to the empty fresh state and
the three-spec batch. -/
theorem c6_witness :
    (batchEnsureRecords emptyFreshState [batchItem1, batchItem2, batchItem3]).isOk = true :=
  c6_partial_batch.1 emptyFreshState [batchItem1, batchItem2, batchItem3] rfl

theorem createRecord_eq_of_refresh_fail {st : ProviderState} {c : DNSRecord} {rs rs2 : List Bool}
    (hv : validateRecord c = none)
    (hnr : nextResp st.responses = (true, rs))
    (hnr2 : nextResp rs = (false, rs2)) :
    createRecord st c = .err "Technitium API Error"
      { st with backend := st.backend ++ [echoRecord c], responses := rs2 }
      [.createRecord, .apiAdd, .apiList] := by
  unfold createRecord refreshRecordCache echoRecord
  rw [hv, hnr]
  simp only [hnr2]
  rfl

theorem validateRecord_manage (c : DNSRecord) (m : JSValue) :
    validateRecord { c with manage := m } = validateRecord c := rfl

theorem convertToTechnitiumFormat_manage (c : DNSRecord) (m z : JSValue) :
    convertToTechnitiumFormat { c with manage := m } z = convertToTechnitiumFormat c z := rfl

theorem keyMatch_manage (c : DNSRecord) (m : JSValue) :
    keyMatch { c with manage := m } = keyMatch c := rfl

theorem recordNeedsUpdate_manage (r c : DNSRecord) (m : JSValue) :
    recordNeedsUpdate r { c with manage := m } = recordNeedsUpdate r c := rfl

theorem createRecord_manage (st : ProviderState) (c : DNSRecord) (m : JSValue) :
    createRecord st { c with manage := m } =
      match createRecord st c with
      | .ok _ st1 tr => .ok { c with manage := m } st1 tr
      | .err e st1 tr => .err e st1 tr := by
  cases hv : validateRecord c with
  | some e =>
    have hv2 : validateRecord { c with manage := m } = some e :=
      (validateRecord_manage c m).trans hv
    rw [createRecord_eq_of_invalid hv, createRecord_eq_of_invalid hv2]
  | none =>
    have hv2 : validateRecord { c with manage := m } = none :=
      (validateRecord_manage c m).trans hv
    rcases hnr : nextResp st.responses with ⟨rok, rs⟩
    cases rok
    · rw [createRecord_eq_of_valid_fail hv hnr, createRecord_eq_of_valid_fail hv2 hnr]
    · rcases hnr2 : nextResp rs with ⟨rok2, rs2⟩
      cases rok2
      · rw [createRecord_eq_of_refresh_fail hv hnr hnr2,
            createRecord_eq_of_refresh_fail hv2 hnr hnr2]
        rfl
      · rw [createRecord_eq_of_valid_ok hv hnr hnr2,
            createRecord_eq_of_valid_ok hv2 hnr hnr2]
        rfl

theorem createRecord_ok_val {st : ProviderState} {c v : DNSRecord} {st1 : ProviderState}
    {tr : List Ev} (h : createRecord st c = .ok v st1 tr) : v = c := by
  cases hv : validateRecord c with
  | some e =>
    rw [createRecord_eq_of_invalid hv] at h
    cases h
  | none =>
    rcases hnr : nextResp st.responses with ⟨rok, rs⟩
    cases rok
    · rw [createRecord_eq_of_valid_fail hv hnr] at h
      cases h
    · rcases hnr2 : nextResp rs with ⟨rok2, rs2⟩
      cases rok2
      · rw [createRecord_eq_of_refresh_fail hv hnr hnr2] at h
        cases h
      · rw [createRecord_eq_of_valid_ok hv hnr hnr2] at h
        cases h
        rfl

theorem deleteRecord_isOk (st : ProviderState) (id : JSValue) :
    ∃ b st1 tr1, deleteRecord st id = .ok b st1 tr1 := by
  rcases hnr : nextResp st.responses with ⟨rok, rs⟩
  cases hf : st.cacheRecords.find? (fun r => jsStrictEq r.id id) with
  | none => exact ⟨_, _, _, deleteRecord_eq_of_none hf⟩
  | some rec0 =>
    cases rok
    · exact ⟨_, _, _, deleteRecord_eq_of_some_fail hf hnr⟩
    · exact ⟨_, _, _, deleteRecord_eq_of_some_ok hf hnr⟩

theorem updateRecord_eq {st : ProviderState} {id : JSValue} {b : Bool} {st1 : ProviderState}
    {tr1 : List Ev} (c : DNSRecord) (hd : deleteRecord st id = .ok b st1 tr1) :
    updateRecord st id c =
      match createRecord st1 c with
      | .ok v st2 tr2 => .ok v st2 ([Ev.updateRecord] ++ tr1 ++ tr2)
      | .err e st2 tr2 => .err e st2 ([Ev.updateRecord] ++ tr1 ++ tr2) := by
  unfold updateRecord
  rw [hd]

theorem updateRecord_manage (st : ProviderState) (id : JSValue) (c : DNSRecord) (m : JSValue) :
    updateRecord st id { c with manage := m } =
      match updateRecord st id c with
      | .ok _ st1 tr => .ok { c with manage := m } st1 tr
      | .err e st1 tr => .err e st1 tr := by
  obtain ⟨b, st1, tr1, hd⟩ := deleteRecord_isOk st id
  rw [updateRecord_eq { c with manage := m } hd, updateRecord_eq c hd, createRecord_manage]
  cases createRecord st1 c <;> rfl

theorem updateRecord_ok_val {st : ProviderState} {id : JSValue} {c v : DNSRecord}
    {st1 : ProviderState} {tr : List Ev} (h : updateRecord st id c = .ok v st1 tr) : v = c := by
  obtain ⟨b, st2, tr2, hd⟩ := deleteRecord_isOk st id
  rw [updateRecord_eq c hd] at h
  cases hc : createRecord st2 c with
  | ok v2 st3 tr3 =>
    rw [hc] at h
    cases h
    exact createRecord_ok_val hc
  | err e st3 tr3 =>
    rw [hc] at h
    cases h

theorem processConfig_eq_none {st : ProviderState} {res : List DNSRecord} {c : DNSRecord}
    (hfind : st.cacheRecords.find? (keyMatch c) = none) :
    processConfig st res c =
      match createRecord st c with
      | .ok v st1 tr => (res ++ [v], st1, tr)
      | .err _ st1 tr => (res, st1, tr) := by
  unfold processConfig
  rw [hfind]

theorem processConfig_eq_some {st : ProviderState} {res : List DNSRecord} {c r : DNSRecord}
    (hfind : st.cacheRecords.find? (keyMatch c) = some r) :
    processConfig st res c =
      if recordNeedsUpdate r c = true then
        match updateRecord st r.id c with
        | .ok v st1 tr => (res ++ [v], st1, tr)
        | .err _ st1 tr => (res, st1, tr)
      else (res, st, []) := by
  unfold processConfig
  rw [hfind]

theorem processConfig_manage_nil (st : ProviderState) (c : DNSRecord) (m : JSValue) :
    processConfig st [] { c with manage := m } =
      ((processConfig st [] c).1.map (fun r => { r with manage := m }),
       (processConfig st [] c).2.1, (processConfig st [] c).2.2) := by
  cases hfind : st.cacheRecords.find? (keyMatch c) with
  | none =>
    have hfind2 : st.cacheRecords.find? (keyMatch { c with manage := m }) = none := by
      rw [keyMatch_manage]
      exact hfind
    rw [processConfig_eq_none hfind2, processConfig_eq_none hfind, createRecord_manage]
    cases hc : createRecord st c with
    | ok v st1 tr =>
      have hvc := createRecord_ok_val hc
      subst hvc
      rfl
    | err e st1 tr => rfl
  | some existing =>
    have hfind2 : st.cacheRecords.find? (keyMatch { c with manage := m }) = some existing := by
      rw [keyMatch_manage]
      exact hfind
    rw [processConfig_eq_some hfind2, processConfig_eq_some hfind, recordNeedsUpdate_manage]
    cases hu : recordNeedsUpdate existing c
    · rw [if_neg (Bool.false_ne_true), if_neg (Bool.false_ne_true)]
      rfl
    · rw [if_pos rfl, if_pos rfl, updateRecord_manage]
      cases hup : updateRecord st existing.id c with
      | ok v st1 tr =>
        have hvc := updateRecord_ok_val hup
        subst hvc
        rfl
      | err e st1 tr => rfl

theorem batchEnsureRecords_singleton_err {st : ProviderState} {e : String}
    {st1 : ProviderState} {tr1 : List Ev} (c : DNSRecord)
    (hg : getRecordsFromCache st = .err e st1 tr1) :
    batchEnsureRecords st [c] = .err e st1 tr1 := by
  unfold batchEnsureRecords
  rw [hg]
  rfl

theorem batchEnsureRecords_singleton_ok {st : ProviderState} {v : List DNSRecord}
    {st1 : ProviderState} {tr1 : List Ev} (c : DNSRecord)
    (hg : getRecordsFromCache st = .ok v st1 tr1) :
    batchEnsureRecords st [c] =
      .ok (processConfig st1 [] c).1 (processConfig st1 [] c).2.1
          (tr1 ++ ((processConfig st1 [] c).2.2 ++ [])) := by
  unfold batchEnsureRecords
  rw [hg]
  rfl

/-- C7, counterexample: a spec with manage set to false is not skipped by
batchEnsureRecords: over an empty fresh cache, its convergence enters
createRecord and issues the outbound add call, refuting that no create call
is performed for a manage-false spec. -/
theorem c7_counterexample :
    unmanagedSpec.manage = JSValue.bool false ∧
    Ev.createRecord ∈ (batchEnsureRecords emptyFreshState [unmanagedSpec]).trace ∧
    Ev.apiAdd ∈ (batchEnsureRecords emptyFreshState [unmanagedSpec]).trace ∧
    (batchEnsureRecords emptyFreshState [unmanagedSpec]).resultsOf = [unmanagedSpec] := by
  exact ⟨rfl, by decide, by decide, rfl⟩

/-- C7, amended: batchEnsureRecords never consults the manage flag: changing
the manage field of a spec changes neither the trace of calls nor the
post-state of the batch, and changes its returned results only by carrying the
modified flag.  The exclusion of manage-false specs is not performed by this
batch convergence. -/
theorem c7_amended_manage_ignored (st : ProviderState) (c : DNSRecord) (m : JSValue) :
    (batchEnsureRecords st [{ c with manage := m }]).trace
      = (batchEnsureRecords st [c]).trace ∧
    (batchEnsureRecords st [{ c with manage := m }]).stateOf
      = (batchEnsureRecords st [c]).stateOf ∧
    (batchEnsureRecords st [{ c with manage := m }]).resultsOf
      = (batchEnsureRecords st [c]).resultsOf.map (fun r => { r with manage := m }) := by
  cases hg : getRecordsFromCache st with
  | err e st1 tr1 =>
    rw [batchEnsureRecords_singleton_err { c with manage := m } hg,
        batchEnsureRecords_singleton_err c hg]
    exact ⟨rfl, rfl, rfl⟩
  | ok v st1 tr1 =>
    rw [batchEnsureRecords_singleton_ok { c with manage := m } hg,
        batchEnsureRecords_singleton_ok c hg, processConfig_manage_nil]
    exact ⟨rfl, rfl, rfl⟩

/-- C8: in the cooperative interleaving model of updatePublicIPs, starting
from a state where one refresh is in flight (flag set) and n callers invoked
the method during that flight (each observed the flag and entered the wait
loop), every reachable state has an unchanged outbound-call-sequence counter
(no duplicate outbound calls), and every caller that has returned received
exactly the cache installed by the single in-flight refresh. -/
theorem c8_single_flight (v c0 : JSValue) (k n : Nat) (s : SFState)
    (h : SFReach (sfInit v c0 k n) s) :
    s.fetchCount = k ∧ ∀ r, SFProc.done r ∈ s.procs → r = v := by
  have inv : s.fetchCount = k ∧
      (∀ p ∈ s.procs, p = .fetching v ∨ p = .waiting ∨ p = .done v) ∧
      (s.flag = false → s.cache = v) := by
    induction h with
    | refl =>
      refine ⟨rfl, ?_, ?_⟩
      · intro p hp
        rcases List.mem_cons.mp hp with h1 | h1
        · exact Or.inl h1
        · exact Or.inr (Or.inl (List.eq_of_mem_replicate h1))
      · intro hf
        exact Bool.noConfusion hf
    | tail hab hbc ih =>
      obtain ⟨ihc, ihp, ihf⟩ := ih
      cases hbc with
      | commit i v2 hget =>
        have hv2 : v2 = v := by
          have hmem := List.getElem?_mem hget
          rcases ihp _ hmem with h1 | h1 | h1
          · injection h1
          · exact SFProc.noConfusion h1
          · exact SFProc.noConfusion h1
        subst hv2
        refine ⟨ihc, ?_, fun _ => rfl⟩
        intro p hp
        rcases List.mem_or_eq_of_mem_set hp with h1 | h1
        · exact ihp p h1
        · exact Or.inr (Or.inr h1)
      | wake i hget hf =>
        refine ⟨ihc, ?_, fun _ => ihf hf⟩
        intro p hp
        rcases List.mem_or_eq_of_mem_set hp with h1 | h1
        · exact ihp p h1
        · right
          right
          rw [h1, ihf hf]
  obtain ⟨h1, h2, -⟩ := inv
  refine ⟨h1, ?_⟩
  intro r hr
  rcases h2 _ hr with h3 | h3 | h3
  · exact SFProc.noConfusion h3
  · exact SFProc.noConfusion h3
  · injection h3

/-- C8, witness: a concrete two-step run (the refresher commits, then the one
waiting caller wakes) from the initial single-flight state with one waiter;
the reached final state keeps the call counter at 1 and both callers hold the
committed cache. -/
theorem c8_witness :
    SFReach (sfInit sfResult JSValue.undefined 1 1) sfFinal ∧
    sfFinal.fetchCount = 1 ∧
    (∀ r, SFProc.done r ∈ sfFinal.procs → r = sfResult) := by
  have hreach : SFReach (sfInit sfResult JSValue.undefined 1 1) sfFinal := by
    refine Relation.ReflTransGen.head (SFStep.commit _ 0 sfResult rfl) ?_
    refine Relation.ReflTransGen.head (SFStep.wake _ 1 rfl rfl) ?_
    exact Relation.ReflTransGen.refl
  have hmain := c8_single_flight sfResult JSValue.undefined 1 1 sfFinal hreach
  exact ⟨hreach, hmain.1, hmain.2⟩

theorem find?_append_some {α} {p : α → Bool} {l1 : List α} (l2 : List α) {a : α}
    (h : l1.find? p = some a) : (l1 ++ l2).find? p = some a := by
  rw [List.find?_append, h]
  rfl

theorem find?_append_none {α} {p : α → Bool} {l1 : List α} (l2 : List α)
    (h : l1.find? p = none) : (l1 ++ l2).find? p = l2.find? p := by
  rw [List.find?_append, h]
  rfl

theorem find?_eq_none_of_all {α} {p : α → Bool} {l : List α}
    (h : ∀ x ∈ l, p x = false) : l.find? p = none :=
  List.find?_eq_none.mpr (fun x hx => by rw [h x hx]; exact Bool.false_ne_true)

theorem find?_filter_preserve {α} {p q : α → Bool} {l : List α} {a : α}
    (h : l.find? p = some a) (hq : q a = true) : (l.filter q).find? p = some a := by
  induction l with
  | nil => cases h
  | cons x xs ih =>
    cases hpx : p x with
    | true =>
      rw [List.find?_cons_of_pos _ hpx] at h
      cases h
      rw [List.filter_cons_of_pos hq]
      exact List.find?_cons_of_pos _ hpx
    | false =>
      rw [List.find?_cons_of_neg _ (by rw [hpx]; exact Bool.false_ne_true)] at h
      cases hqx : q x with
      | true =>
        rw [List.filter_cons_of_pos hqx, List.find?_cons_of_neg _ (by rw [hpx]; exact Bool.false_ne_true)]
        exact ih h
      | false =>
        rw [List.filter_cons_of_neg (by rw [hqx]; exact Bool.false_ne_true)]
        exact ih h

theorem find?_decomp {α} {p : α → Bool} {l : List α} {a : α} (h : l.find? p = some a) :
    ∃ l1 l2, l = l1 ++ a :: l2 ∧ ∀ x ∈ l1, p x = false := by
  induction l with
  | nil => cases h
  | cons x xs ih =>
    cases hpx : p x with
    | true =>
      rw [List.find?_cons_of_pos _ hpx] at h
      cases h
      exact ⟨[], xs, rfl, fun y hy => absurd hy (List.not_mem_nil y)⟩
    | false =>
      rw [List.find?_cons_of_neg _ (by rw [hpx]; exact Bool.false_ne_true)] at h
      obtain ⟨l1, l2, heq, hall⟩ := ih h
      refine ⟨x :: l1, l2, by rw [heq]; rfl, ?_⟩
      intro y hy
      rcases List.mem_cons.mp hy with h1 | h1
      · rw [h1]
        exact hpx
      · exact hall y h1

theorem find?_of_decomp {α} {p : α → Bool} {l1 : List α} (l2 : List α) {a : α}
    (hall : ∀ x ∈ l1, p x = false) (hpa : p a = true) :
    (l1 ++ a :: l2).find? p = some a := by
  induction l1 with
  | nil => exact List.find?_cons_of_pos _ hpa
  | cons x xs ih =>
    rw [List.cons_append,
        List.find?_cons_of_neg _ (by rw [hall x (List.mem_cons_self x xs)]; exact Bool.false_ne_true)]
    exact ih (fun y hy => hall y (List.mem_cons_of_mem x hy))

theorem convertToTechnitiumFormat_eq_A {c : DNSRecord} (zone : JSValue)
    (h : c.type = JSValue.str "A") :
    convertToTechnitiumFormat c zone =
      .obj [("zone", zone), ("domain", c.name), ("type", c.type),
            ("ttl", jsOr c.ttl (.num 3600)), ("ipAddress", c.content)] := by
  unfold convertToTechnitiumFormat
  rw [h]
  rfl

theorem convertToTechnitiumFormat_eq_AAAA {c : DNSRecord} (zone : JSValue)
    (h : c.type = JSValue.str "AAAA") :
    convertToTechnitiumFormat c zone =
      .obj [("zone", zone), ("domain", c.name), ("type", c.type),
            ("ttl", jsOr c.ttl (.num 3600)), ("ipAddress", c.content)] := by
  unfold convertToTechnitiumFormat
  rw [h]
  rfl

theorem convertToTechnitiumFormat_eq_CNAME {c : DNSRecord} (zone : JSValue)
    (h : c.type = JSValue.str "CNAME") :
    convertToTechnitiumFormat c zone =
      .obj [("zone", zone), ("domain", c.name), ("type", c.type),
            ("ttl", jsOr c.ttl (.num 3600)), ("cname", c.content)] := by
  unfold convertToTechnitiumFormat
  rw [h]
  rfl

theorem convertToTechnitiumFormat_eq_ANAME {c : DNSRecord} (zone : JSValue)
    (h : c.type = JSValue.str "ANAME") :
    convertToTechnitiumFormat c zone =
      .obj [("zone", zone), ("domain", c.name), ("type", c.type),
            ("ttl", jsOr c.ttl (.num 3600)), ("cname", c.content)] := by
  unfold convertToTechnitiumFormat
  rw [h]
  rfl

theorem convertToTechnitiumFormat_eq_TXT {c : DNSRecord} (zone : JSValue)
    (h : c.type = JSValue.str "TXT") :
    convertToTechnitiumFormat c zone =
      .obj [("zone", zone), ("domain", c.name), ("type", c.type),
            ("ttl", jsOr c.ttl (.num 3600)), ("text", c.content)] := by
  unfold convertToTechnitiumFormat
  rw [h]
  rfl

theorem serverStore_key_ipAddress (z nm ty tt v : JSValue) :
    serverStore (.obj [("zone", z), ("domain", nm), ("type", ty), ("ttl", tt),
                       ("ipAddress", v)]) =
      .obj [("name", nm), ("type", ty), ("ttl", tt), ("rData", .obj [("ipAddress", v)])] := rfl

theorem serverStore_key_cname (z nm ty tt v : JSValue) :
    serverStore (.obj [("zone", z), ("domain", nm), ("type", ty), ("ttl", tt),
                       ("cname", v)]) =
      .obj [("name", nm), ("type", ty), ("ttl", tt), ("rData", .obj [("cname", v)])] := rfl

theorem serverStore_key_text (z nm ty tt v : JSValue) :
    serverStore (.obj [("zone", z), ("domain", nm), ("type", ty), ("ttl", tt),
                       ("text", v)]) =
      .obj [("name", nm), ("type", ty), ("ttl", tt), ("rData", .obj [("text", v)])] := rfl

theorem echo_getF_name (c : DNSRecord) : (echoRecord c).getF "name" = c.name := rfl

theorem echo_getF_type (c : DNSRecord) : (echoRecord c).getF "type" = c.type := rfl

theorem echo_getF_ttl (c : DNSRecord) :
    (echoRecord c).getF "ttl" = jsOr c.ttl (.num 3600) := rfl

theorem cvtStd_name (x : JSValue) : (convertToStandardFormat x).name = x.getF "name" := rfl

theorem cvtStd_type (x : JSValue) : (convertToStandardFormat x).type = x.getF "type" := rfl

theorem cvtStd_ttl (x : JSValue) : (convertToStandardFormat x).ttl = x.getF "ttl" := rfl

theorem jsOr_of_truthy (a b : JSValue) (h : truthy a = true) : jsOr a b = a := by
  unfold jsOr
  rw [h]
  rfl

theorem jsOr_of_falsy (a b : JSValue) (h : truthy a = false) : jsOr a b = b := by
  unfold jsOr
  rw [h]
  rfl

theorem truthy_str_of_ne {s : String} (h : s ≠ "") : truthy (JSValue.str s) = true := by
  simp [truthy, h]

theorem echo_fields {c : DNSRecord} (hg : GoodSpec c) :
    (convertToStandardFormat (echoRecord c)).name = c.name ∧
    (convertToStandardFormat (echoRecord c)).type = c.type ∧
    (convertToStandardFormat (echoRecord c)).content = c.content ∧
    (convertToStandardFormat (echoRecord c)).ttl = jsOr c.ttl (JSValue.num 3600) := by
  obtain ⟨hty, ⟨s, hs, hs0⟩, ⟨t, htc, ht0⟩, -⟩ := hg
  have htr : truthy c.content = true := by rw [htc]; exact truthy_str_of_ne ht0
  rcases hty with h | h | h | h | h
  · rw [echoRecord, convertToTechnitiumFormat_eq_A JSValue.undefined h, serverStore_key_ipAddress]
    exact ⟨rfl, rfl, jsOr_of_truthy _ _ htr, rfl⟩
  · rw [echoRecord, convertToTechnitiumFormat_eq_AAAA JSValue.undefined h, serverStore_key_ipAddress]
    exact ⟨rfl, rfl, jsOr_of_truthy _ _ htr, rfl⟩
  · rw [echoRecord, convertToTechnitiumFormat_eq_CNAME JSValue.undefined h, serverStore_key_cname]
    refine ⟨rfl, rfl, ?_, rfl⟩
    show jsOr JSValue.undefined (jsOr c.content (jsOr JSValue.undefined (JSValue.obj [("cname", c.content)]))) = c.content
    rw [jsOr_of_falsy JSValue.undefined _ rfl, jsOr_of_truthy _ _ htr]
  · rw [echoRecord, convertToTechnitiumFormat_eq_ANAME JSValue.undefined h, serverStore_key_cname]
    refine ⟨rfl, rfl, ?_, rfl⟩
    show jsOr JSValue.undefined (jsOr c.content (jsOr JSValue.undefined (JSValue.obj [("cname", c.content)]))) = c.content
    rw [jsOr_of_falsy JSValue.undefined _ rfl, jsOr_of_truthy _ _ htr]
  · rw [echoRecord, convertToTechnitiumFormat_eq_TXT JSValue.undefined h, serverStore_key_text]
    refine ⟨rfl, rfl, ?_, rfl⟩
    show jsOr JSValue.undefined (jsOr JSValue.undefined (jsOr c.content (JSValue.obj [("text", c.content)]))) = c.content
    rw [jsOr_of_falsy JSValue.undefined _ rfl, jsOr_of_falsy JSValue.undefined _ rfl,
        jsOr_of_truthy _ _ htr]

theorem goodType_truthy {t : JSValue} (h : goodType t) : truthy t = true := by
  rcases h with h | h | h | h | h <;> rw [h] <;> rfl

theorem goodSpec_str_name {c : DNSRecord} (hg : GoodSpec c) :
    jsStrictEq c.name c.name = true := by
  obtain ⟨-, ⟨s, hs, -⟩, -, -⟩ := hg
  rw [hs]
  exact jsStrictEq_str_self s

theorem goodSpec_str_type {c : DNSRecord} (hg : GoodSpec c) :
    jsStrictEq c.type c.type = true := by
  obtain ⟨hty, -, -, -⟩ := hg
  rcases hty with h | h | h | h | h <;> rw [h] <;> exact jsStrictEq_str_self _

theorem bkey_echo_self {c : DNSRecord} (hg : GoodSpec c) :
    bkeyIs c.name c.type (echoRecord c) = true := by
  unfold bkeyIs
  rw [echo_getF_name, echo_getF_type, goodSpec_str_name hg, goodSpec_str_type hg]
  rfl

theorem echo_noUpdate {c : DNSRecord} (hg : GoodSpec c) :
    recordNeedsUpdate (convertToStandardFormat (echoRecord c)) c = false := by
  obtain ⟨-, -, hcf, httl⟩ := echo_fields hg
  obtain ⟨-, -, ⟨t, htc, ht0⟩, httl0⟩ := hg
  unfold recordNeedsUpdate
  rw [hcf, httl]
  have h1 : jsStrictEq c.content c.content = true := by
    rw [htc]
    exact jsStrictEq_str_self t
  rw [h1]
  cases hT : truthy c.ttl
  · rfl
  · rcases httl0 with h0 | ⟨n, -, hnn⟩
    · rw [hT] at h0
      cases h0
    · rw [jsOr_of_truthy _ _ hT, hnn]
      simp [jsStrictEq]

theorem KeyNe_symmEq {c c2 : DNSRecord} (h : KeyNe c c2) :
    (jsStrictEq c2.name c.name && jsStrictEq c2.type c.type) = false := by
  unfold KeyNe at h
  rw [jsStrictEq_comm c2.name c.name, jsStrictEq_comm c2.type c.type]
  exact h

theorem KeyNe_symm {c c2 : DNSRecord} (h : KeyNe c c2) : KeyNe c2 c := KeyNe_symmEq h

theorem bkey_echo_ne {c c2 : DNSRecord} (h : KeyNe c c2) :
    bkeyIs c.name c.type (echoRecord c2) = false := by
  unfold bkeyIs
  rw [echo_getF_name, echo_getF_type]
  exact KeyNe_symmEq h

theorem keyMatch_cvtStd (c : DNSRecord) (b : JSValue) :
    keyMatch c (convertToStandardFormat b) = bkeyIs c.name c.type b := rfl

theorem find?_keyMatch_map (c : DNSRecord) (l : List JSValue) :
    (l.map convertToStandardFormat).find? (keyMatch c)
      = (l.find? (bkeyIs c.name c.type)).map convertToStandardFormat := by
  rw [List.find?_map]
  rfl

theorem find?_id_map (idv : JSValue) (l : List JSValue) :
    (l.map convertToStandardFormat).find? (fun r => jsStrictEq r.id idv)
      = (l.find? (fun b => jsStrictEq (convertToStandardFormat b).id idv)).map
          convertToStandardFormat := by
  rw [List.find?_map]
  rfl

theorem cvtStd_id_str (x : JSValue) : ∃ s, (convertToStandardFormat x).id = JSValue.str s :=
  ⟨_, rfl⟩

theorem jsStrictEq_cvtStd_id_self (b : JSValue) :
    jsStrictEq (convertToStandardFormat b).id (convertToStandardFormat b).id = true := by
  obtain ⟨s, hs⟩ := cvtStd_id_str b
  rw [hs]
  exact jsStrictEq_str_self s

theorem jsStrictEq_cvtStd_id_ne {x b : JSValue}
    (h : (convertToStandardFormat x).id ≠ (convertToStandardFormat b).id) :
    jsStrictEq (convertToStandardFormat x).id (convertToStandardFormat b).id = false := by
  obtain ⟨s1, h1⟩ := cvtStd_id_str x
  obtain ⟨s2, h2⟩ := cvtStd_id_str b
  rw [h1, h2] at h ⊢
  exact decide_eq_false (fun he => h (by rw [he]))

theorem goodSpec_validate {c : DNSRecord} (hg : GoodSpec c) : validateRecord c = none := by
  obtain ⟨hty, ⟨s, hs, hs0⟩, ⟨t, htc, ht0⟩, httl⟩ := hg
  have h1 : truthy c.type = true := goodType_truthy hty
  have h2 : truthy c.name = true := by rw [hs]; exact truthy_str_of_ne hs0
  have h3 : truthy c.content = true := by rw [htc]; exact truthy_str_of_ne ht0
  have h4 : (truthy c.ttl && jsLtZero c.ttl) = false := by
    rcases httl with h | ⟨n, hn0, hnn⟩
    · rw [h]
      rfl
    · have h5 : ¬ (n < 0) := by omega
      rw [hnn]
      simp [truthy, jsLtZero, h5]
  cases h5 : truthy c.ttl <;> cases h6 : jsLtZero c.ttl <;> simp_all [validateRecord]

theorem createRecord_nil_responses {st : ProviderState} {c : DNSRecord}
    (hv : validateRecord c = none) (hresp : st.responses = []) :
    createRecord st c = .ok c
      { cacheRecords := (st.backend ++ [echoRecord c]).map convertToStandardFormat,
        fresh := true, backend := st.backend ++ [echoRecord c], responses := [] }
      [.createRecord, .apiAdd, .apiList] := by
  have h1 : nextResp st.responses = (true, ([] : List Bool)) := by rw [hresp]; rfl
  have h2 : nextResp ([] : List Bool) = (true, ([] : List Bool)) := rfl
  exact createRecord_eq_of_valid_ok hv h1 h2

theorem and_true_split {a b : Bool} (h : (a && b) = true) : a = true ∧ b = true := by
  cases a <;> cases b <;> simp_all

theorem bkey_both_contradiction {c c2 : DNSRecord} {b0 : JSValue}
    (hgc : GoodSpec c) (h1 : bkeyIs c.name c.type b0 = true)
    (h2 : bkeyIs c2.name c2.type b0 = true) (hne : KeyNe c c2) : False := by
  obtain ⟨h1n, h1t⟩ := and_true_split h1
  obtain ⟨h2n, h2t⟩ := and_true_split h2
  have hn : c.name = c2.name := (jsStrictEq_eq_of_true h1n).symm.trans (jsStrictEq_eq_of_true h2n)
  have ht : c.type = c2.type := (jsStrictEq_eq_of_true h1t).symm.trans (jsStrictEq_eq_of_true h2t)
  unfold KeyNe at hne
  rw [← hn, ← ht, goodSpec_str_name hgc, goodSpec_str_type hgc] at hne
  simp at hne

theorem batchLoop_cons (st : ProviderState) (res : List DNSRecord) (c : DNSRecord)
    (cs : List DNSRecord) :
    batchLoop st res (c :: cs) =
      ((batchLoop (processConfig st res c).2.1 (processConfig st res c).1 cs).1,
       (batchLoop (processConfig st res c).2.1 (processConfig st res c).1 cs).2.1,
       (processConfig st res c).2.2
         ++ (batchLoop (processConfig st res c).2.1 (processConfig st res c).1 cs).2.2) := rfl

theorem processConfig_of_converged {st : ProviderState} {c : DNSRecord} (res : List DNSRecord)
    (hcache : st.cacheRecords = st.backend.map convertToStandardFormat)
    (hkc : KeyConverged st.backend c) :
    processConfig st res c = (res, st, []) := by
  obtain ⟨b, hb, hnu⟩ := hkc
  have hfind : st.cacheRecords.find? (keyMatch c) = some (convertToStandardFormat b) := by
    rw [hcache, find?_keyMatch_map, hb]
    rfl
  exact processConfig_skip hfind hnu

theorem batchLoop_skip {st : ProviderState} {L : List DNSRecord}
    (hcache : st.cacheRecords = st.backend.map convertToStandardFormat)
    (hall : ∀ c ∈ L, KeyConverged st.backend c) :
    ∀ res, batchLoop st res L = (res, st, []) := by
  induction L with
  | nil => intro res; rfl
  | cons c cs ih =>
    intro res
    rw [batchLoop_cons, processConfig_of_converged res hcache (hall c (List.mem_cons_self c cs))]
    show ((batchLoop st res cs).1, (batchLoop st res cs).2.1,
          ([] : List Ev) ++ (batchLoop st res cs).2.2) = (res, st, [])
    rw [ih (fun c2 hc2 => hall c2 (List.mem_cons_of_mem c hc2)) res]
    rfl

theorem batchEnsureRecords_cons_ok {st : ProviderState} {v : List DNSRecord}
    {st1 : ProviderState} {tr1 : List Ev} (c : DNSRecord) (cs : List DNSRecord)
    (hg : getRecordsFromCache st = .ok v st1 tr1) :
    batchEnsureRecords st (c :: cs) =
      .ok (batchLoop st1 [] (c :: cs)).1 (batchLoop st1 [] (c :: cs)).2.1
          (tr1 ++ (batchLoop st1 [] (c :: cs)).2.2) := by
  unfold batchEnsureRecords
  rw [hg]
  rfl

theorem batch_skip {st : ProviderState} {L : List DNSRecord}
    (hfresh : st.fresh = true)
    (hcache : st.cacheRecords = st.backend.map convertToStandardFormat)
    (hall : ∀ c ∈ L, KeyConverged st.backend c) :
    batchEnsureRecords st L = .ok [] st [] := by
  cases L with
  | nil => rfl
  | cons c cs =>
    have hget : getRecordsFromCache st = .ok st.cacheRecords st [] := by
      unfold getRecordsFromCache
      rw [hfresh]
      rfl
    rw [batchEnsureRecords_cons_ok c cs hget, batchLoop_skip hcache hall []]
    rfl

/-- C1, counterexample: the single-spec desired set holding one MX record is
not idempotent: the first batch run creates the record, but on the second run
against the unchanged backend the converted cached record carries the whole
rData object as content (convertToStandardFormat reads only ipAddress, cname
and text), which is never strictly equal to the string content of the spec,
so the second run performs an updateRecord mutation. -/
theorem c1_counterexample :
    (batchEnsureRecords emptyStaleState [mxSpec]).isOk = true ∧
    (batchEnsureRecords (batchEnsureRecords emptyStaleState [mxSpec]).stateOf
      [mxSpec]).trace.count Ev.updateRecord = 1 :=
  ⟨rfl, rfl⟩

theorem find?_prop {α} {p : α → Bool} {l : List α} {a : α}
    (h : l.find? p = some a) : p a = true := by
  induction l with
  | nil => cases h
  | cons x xs ih =>
    cases hpx : p x with
    | true =>
      rw [List.find?_cons_of_pos _ hpx] at h
      cases h
      exact hpx
    | false =>
      rw [List.find?_cons_of_neg _ (by rw [hpx]; exact Bool.false_ne_true)] at h
      exact ih h

theorem pairwise_single {α} (R : α → α → Prop) (a : α) : List.Pairwise R [a] :=
  List.pairwise_cons.mpr ⟨fun y hy => absurd hy (List.not_mem_nil y), List.Pairwise.nil⟩

theorem andl_false {a b : Bool} (h : a = false) : (a && b) = false := by
  rw [h]
  rfl

theorem filter_map_comm {α β} (f : α → β) (q : β → Bool) (l : List α) :
    (l.map f).filter q = (l.filter (fun x => q (f x))).map f := by
  induction l with
  | nil => rfl
  | cons x xs ih =>
    simp only [List.map_cons, List.filter_cons]
    cases q (f x) <;> simp [ih]

theorem convert_getF_domain (record : DNSRecord) (zone : JSValue) :
    (convertToTechnitiumFormat record zone).getF "domain" = record.name := rfl

theorem convert_getF_type (record : DNSRecord) (zone : JSValue) :
    (convertToTechnitiumFormat record zone).getF "type" = record.type := rfl

theorem deleteParams_getF_domain (sp : DNSRecord) :
    (deleteParams sp).getF "domain" = (convertToStandardFormat (echoRecord sp)).name := rfl

theorem deleteParams_getF_type (sp : DNSRecord) :
    (deleteParams sp).getF "type" = (convertToStandardFormat (echoRecord sp)).type := rfl

theorem KeyNe_of_bkey_echo_false {c x : DNSRecord}
    (h : bkeyIs c.name c.type (echoRecord x) = false) : KeyNe x c := by
  unfold bkeyIs at h
  rw [echo_getF_name, echo_getF_type] at h
  exact h

theorem bkey_echo_false_of_KeyNe {c x : DNSRecord} (h : KeyNe x c) :
    bkeyIs c.name c.type (echoRecord x) = false := by
  unfold bkeyIs
  rw [echo_getF_name, echo_getF_type]
  exact h

theorem KeyNe_congr {x sp c : DNSRecord} (h : KeyNe x sp) (hn : sp.name = c.name)
    (ht : sp.type = c.type) : KeyNe x c := by
  unfold KeyNe at h ⊢
  rw [← hn, ← ht]
  exact h

theorem find?_bkey_mapEcho (c : DNSRecord) (B : List DNSRecord) :
    (B.map echoRecord).find? (bkeyIs c.name c.type)
      = (B.find? (fun sp => bkeyIs c.name c.type (echoRecord sp))).map echoRecord := by
  rw [List.find?_map]
  rfl

/-- A stored echo whose key differs from the spec whose delete parameters are
posted never matches the delete request: already its name or type disagrees. -/
theorem recordMatches_echo_ne {sp sp2 : DNSRecord} (hg : GoodSpec sp) (hne : KeyNe sp2 sp) :
    recordMatches (echoRecord sp2) (deleteParams sp) = false := by
  obtain ⟨hrn, hrt, -, -⟩ := echo_fields hg
  unfold recordMatches
  rw [echo_getF_name, echo_getF_type, deleteParams_getF_domain, deleteParams_getF_type,
      hrn, hrt]
  exact andl_false hne

theorem recordMatches_self_aux {sp : DNSRecord} (hg : GoodSpec sp) (k : String)
    (hrd : (echoRecord sp).getF "rData" = JSValue.obj [(k, sp.content)])
    (hcp : contentParams (deleteParams sp)
      = [(k, (convertToStandardFormat (echoRecord sp)).content)])
    (hgetk : (JSValue.obj [(k, sp.content)]).getF k = sp.content) :
    recordMatches (echoRecord sp) (deleteParams sp) = true := by
  obtain ⟨hrn, hrt, hrc, -⟩ := echo_fields hg
  unfold recordMatches
  rw [hcp, echo_getF_name, echo_getF_type, deleteParams_getF_domain, deleteParams_getF_type,
      hrn, hrt, goodSpec_str_name hg, goodSpec_str_type hg, hrd]
  simp only [Bool.true_and, List.all_cons, List.all_nil, Bool.and_true]
  rw [hgetk, hrc]
  obtain ⟨-, -, ⟨t, htc, -⟩, -⟩ := hg
  rw [htc]
  exact jsStrictEq_str_self t

/-- The stored echo of a round-trippable spec matches the delete parameters
the provider posts for its own converted cache image: name, type and the
type-specific data field all round-trip. -/
theorem recordMatches_echo_self {sp : DNSRecord} (hg : GoodSpec sp) :
    recordMatches (echoRecord sp) (deleteParams sp) = true := by
  have hty := hg.1
  have hrt := (echo_fields hg).2.1
  rcases hty with h | h | h | h | h
  · exact recordMatches_self_aux hg "ipAddress"
      (by rw [echoRecord, convertToTechnitiumFormat_eq_A JSValue.undefined h,
              serverStore_key_ipAddress]
          rfl)
      (by unfold deleteParams
          rw [convertToTechnitiumFormat_eq_A JSValue.undefined (hrt.trans h)]
          rfl) rfl
  · exact recordMatches_self_aux hg "ipAddress"
      (by rw [echoRecord, convertToTechnitiumFormat_eq_AAAA JSValue.undefined h,
              serverStore_key_ipAddress]
          rfl)
      (by unfold deleteParams
          rw [convertToTechnitiumFormat_eq_AAAA JSValue.undefined (hrt.trans h)]
          rfl) rfl
  · exact recordMatches_self_aux hg "cname"
      (by rw [echoRecord, convertToTechnitiumFormat_eq_CNAME JSValue.undefined h,
              serverStore_key_cname]
          rfl)
      (by unfold deleteParams
          rw [convertToTechnitiumFormat_eq_CNAME JSValue.undefined (hrt.trans h)]
          rfl) rfl
  · exact recordMatches_self_aux hg "cname"
      (by rw [echoRecord, convertToTechnitiumFormat_eq_ANAME JSValue.undefined h,
              serverStore_key_cname]
          rfl)
      (by unfold deleteParams
          rw [convertToTechnitiumFormat_eq_ANAME JSValue.undefined (hrt.trans h)]
          rfl) rfl
  · exact recordMatches_self_aux hg "text"
      (by rw [echoRecord, convertToTechnitiumFormat_eq_TXT JSValue.undefined h,
              serverStore_key_text]
          rfl)
      (by unfold deleteParams
          rw [convertToTechnitiumFormat_eq_TXT JSValue.undefined (hrt.trans h)]
          rfl) rfl

/-- On a backend of echoes with pairwise-distinct keys, the record-level
delete removes exactly the echo of the spec whose parameters are posted. -/
theorem serverDelete_echo {B1 B2 : List DNSRecord} {sp : DNSRecord}
    (hg : GoodSpec sp)
    (h1 : ∀ x ∈ B1, KeyNe x sp) (h2 : ∀ y ∈ B2, KeyNe y sp) :
    serverDelete (B1.map echoRecord ++ echoRecord sp :: B2.map echoRecord) (deleteParams sp)
      = B1.map echoRecord ++ B2.map echoRecord := by
  unfold serverDelete
  rw [List.filter_append]
  congr 1
  · apply List.filter_eq_self.mpr
    intro b hb
    obtain ⟨x, hx, rfl⟩ := List.mem_map.mp hb
    simp [recordMatches_echo_ne hg (h1 x hx)]
  · have hneg : ¬((fun b => !(recordMatches b (deleteParams sp))) (echoRecord sp) = true) := by
      simp [recordMatches_echo_self hg]
    rw [List.filter_cons, if_neg hneg]
    apply List.filter_eq_self.mpr
    intro b hb
    obtain ⟨y, hy, rfl⟩ := List.mem_map.mp hb
    simp [recordMatches_echo_ne hg (h2 y hy)]

/-- One step of the convergence invariant: processing one good desired spec
whose key differs from every already-processed spec preserves the invariant,
provided the converted ids of the current backend are pairwise distinct. -/
theorem recon_step {init0 : List JSValue} {st : ProviderState} {done : List DNSRecord}
    {c : DNSRecord} (res : List DNSRecord)
    (hinv : ReconInv init0 st done)
    (hg : GoodSpec c)
    (hne : ∀ c2 ∈ done, KeyNe c c2)
    (hdistB : DistinctIds st.backend) :
    ∃ res2 st2 tr, processConfig st res c = (res2, st2, tr) ∧
      ReconInv init0 st2 (done ++ [c]) := by
  obtain ⟨hfr, hresp, hcache, ⟨B, hB, hBg, hBpw⟩, ⟨surv, E, hSE, hsurv, hE⟩, hconv⟩ := hinv
  cases hfB : B.find? (fun sp => bkeyIs c.name c.type (echoRecord sp)) with
  | none =>
    have hfind0 : st.backend.find? (bkeyIs c.name c.type) = none := by
      rw [hB, find?_bkey_mapEcho, hfB]
      rfl
    have hfind : st.cacheRecords.find? (keyMatch c) = none := by
      rw [hcache, find?_keyMatch_map, hfind0]
      rfl
    have hcr := createRecord_nil_responses (goodSpec_validate hg) hresp
    have hpc : processConfig st res c =
        (res ++ [c],
         { cacheRecords := (st.backend ++ [echoRecord c]).map convertToStandardFormat,
           fresh := true, backend := st.backend ++ [echoRecord c], responses := [] },
         [Ev.createRecord, Ev.apiAdd, Ev.apiList]) := by
      rw [processConfig_eq_none hfind, hcr]
    refine ⟨_, _, _, hpc, ?_⟩
    refine ⟨rfl, rfl, rfl, ?_, ?_, ?_⟩
    · refine ⟨B ++ [c], ?_, ?_, ?_⟩
      · show st.backend ++ [echoRecord c] = (B ++ [c]).map echoRecord
        rw [hB, List.map_append]
        rfl
      · intro b hb
        rcases List.mem_append.mp hb with h1 | h1
        · exact hBg b h1
        · rw [List.mem_singleton.mp h1]
          exact hg
      · apply List.pairwise_append.mpr
        refine ⟨hBpw, pairwise_single _ _, ?_⟩
        intro x hx y hy
        rw [List.mem_singleton.mp hy]
        cases hbv : bkeyIs c.name c.type (echoRecord x) with
        | false => exact KeyNe_of_bkey_echo_false hbv
        | true => exact absurd hbv (List.find?_eq_none.mp hfB x hx)
    · refine ⟨surv, E ++ [c], ?_, hsurv, ?_⟩
      · show st.backend ++ [echoRecord c] = surv ++ (E ++ [c]).map echoRecord
        rw [hSE, List.map_append, List.append_assoc]
        rfl
      · exact List.Sublist.append hE (List.Sublist.refl [c])
    · intro c2 hc2
      rcases List.mem_append.mp hc2 with h1 | h1
      · obtain ⟨b0, hb0, hb0nu⟩ := hconv c2 h1
        refine ⟨b0, ?_, hb0nu⟩
        show (st.backend ++ [echoRecord c]).find? (bkeyIs c2.name c2.type) = some b0
        exact find?_append_some _ hb0
      · rw [List.mem_singleton.mp h1]
        refine ⟨echoRecord c, ?_, echo_noUpdate hg⟩
        show (st.backend ++ [echoRecord c]).find? (bkeyIs c.name c.type) = some (echoRecord c)
        rw [find?_append_none _ hfind0]
        exact List.find?_cons_of_pos _ (bkey_echo_self hg)
  | some bsp =>
    have hmem : bsp ∈ B := List.mem_of_find?_eq_some hfB
    have hgb : GoodSpec bsp := hBg bsp hmem
    have hfindB : st.backend.find? (bkeyIs c.name c.type) = some (echoRecord bsp) := by
      rw [hB, find?_bkey_mapEcho, hfB]
      rfl
    have hfind : st.cacheRecords.find? (keyMatch c)
        = some (convertToStandardFormat (echoRecord bsp)) := by
      rw [hcache, find?_keyMatch_map, hfindB]
      rfl
    have hbkey : bkeyIs c.name c.type (echoRecord bsp) = true := by
      have h0 := find?_prop hfB
      exact h0
    have hkey2 : (jsStrictEq bsp.name c.name && jsStrictEq bsp.type c.type) = true := by
      unfold bkeyIs at hbkey
      rw [echo_getF_name, echo_getF_type] at hbkey
      exact hbkey
    have hbn : bsp.name = c.name := jsStrictEq_eq_of_true (and_true_split hkey2).1
    have hbt : bsp.type = c.type := jsStrictEq_eq_of_true (and_true_split hkey2).2
    obtain ⟨hrn, hrt, hrc, -⟩ := echo_fields hgb
    cases hup : recordNeedsUpdate (convertToStandardFormat (echoRecord bsp)) c with
    | false =>
      refine ⟨res, st, [], processConfig_skip hfind hup, ?_⟩
      refine ⟨hfr, hresp, hcache, ⟨B, hB, hBg, hBpw⟩, ⟨surv, E, hSE, hsurv, ?_⟩, ?_⟩
      · exact hE.trans (List.sublist_append_left done [c])
      · intro c2 hc2
        rcases List.mem_append.mp hc2 with h1 | h1
        · exact hconv c2 h1
        · rw [List.mem_singleton.mp h1]
          exact ⟨echoRecord bsp, hfindB, hup⟩
    | true =>
      obtain ⟨B1, B2, hBdec, hB1no⟩ := find?_decomp hfB
      have hBpw2 : List.Pairwise KeyNe (B1 ++ bsp :: B2) := by
        rw [← hBdec]
        exact hBpw
      obtain ⟨pw1, pw2, hcross⟩ := List.pairwise_append.mp hBpw2
      have h1ne : ∀ x ∈ B1, KeyNe x bsp :=
        fun x hx => hcross x hx bsp (List.mem_cons_self bsp B2)
      have h2ne : ∀ y ∈ B2, KeyNe y bsp :=
        fun y hy => KeyNe_symm ((List.pairwise_cons.mp pw2).1 y hy)
      have hbkdec : st.backend = B1.map echoRecord ++ echoRecord bsp :: B2.map echoRecord := by
        rw [hB, hBdec, List.map_append, List.map_cons]
      have hdistB2 : List.Pairwise
          (fun a b => (convertToStandardFormat a).id ≠ (convertToStandardFormat b).id)
          (B1.map echoRecord ++ echoRecord bsp :: B2.map echoRecord) := by
        rw [← hbkdec]
        exact hdistB
      obtain ⟨-, -, hidcross⟩ := List.pairwise_append.mp hdistB2
      have hidl1 : ∀ x ∈ B1.map echoRecord,
          jsStrictEq (convertToStandardFormat x).id
            (convertToStandardFormat (echoRecord bsp)).id = false :=
        fun x hx => jsStrictEq_cvtStd_id_ne
          (hidcross x hx (echoRecord bsp) (List.mem_cons_self _ _))
      have hbkId : st.backend.find? (fun x => jsStrictEq (convertToStandardFormat x).id
          (convertToStandardFormat (echoRecord bsp)).id) = some (echoRecord bsp) := by
        rw [hbkdec]
        exact find?_of_decomp (B2.map echoRecord) hidl1
          (jsStrictEq_cvtStd_id_self (echoRecord bsp))
      have hcacheId : st.cacheRecords.find?
          (fun r => jsStrictEq r.id (convertToStandardFormat (echoRecord bsp)).id)
            = some (convertToStandardFormat (echoRecord bsp)) := by
        rw [hcache, find?_id_map, hbkId]
        rfl
      have hnr : nextResp st.responses = (true, []) := by
        rw [hresp]
        rfl
      have hdel2 : deleteRecord st (convertToStandardFormat (echoRecord bsp)).id = .ok true
          { st with cacheRecords := st.cacheRecords.filter (fun r => !jsStrictEq r.id (convertToStandardFormat (echoRecord bsp)).id),
                    backend := serverDelete st.backend (deleteParams bsp),
                    responses := [] } [.deleteRecord, .apiDel] :=
        deleteRecord_eq_of_some_ok hcacheId hnr
      have hcr2 := @createRecord_nil_responses
        { cacheRecords := st.cacheRecords.filter (fun r => !jsStrictEq r.id (convertToStandardFormat (echoRecord bsp)).id),
          fresh := st.fresh, backend := serverDelete st.backend (deleteParams bsp),
          responses := [] } c (goodSpec_validate hg) rfl
      have hpc : processConfig st res c =
          (res ++ [c],
           { cacheRecords := (serverDelete st.backend (deleteParams bsp)
                ++ [echoRecord c]).map convertToStandardFormat,
             fresh := true,
             backend := serverDelete st.backend (deleteParams bsp) ++ [echoRecord c],
             responses := [] },
           [Ev.updateRecord] ++ [Ev.deleteRecord, Ev.apiDel]
             ++ [Ev.createRecord, Ev.apiAdd, Ev.apiList]) := by
        rw [processConfig_eq_some hfind, if_pos hup, updateRecord_eq c hdel2, hcr2]
      have hsd : serverDelete st.backend (deleteParams bsp)
          = B1.map echoRecord ++ B2.map echoRecord := by
        rw [hbkdec]
        exact serverDelete_echo hgb h1ne h2ne
      have hsurvne : ∀ x ∈ B1 ++ B2, KeyNe x c := by
        intro x hx
        rcases List.mem_append.mp hx with h1 | h1
        · exact KeyNe_congr (h1ne x h1) hbn hbt
        · exact KeyNe_congr (h2ne x h1) hbn hbt
      refine ⟨_, _, _, hpc, ?_⟩
      refine ⟨rfl, rfl, rfl, ?_, ?_, ?_⟩
      · refine ⟨(B1 ++ B2) ++ [c], ?_, ?_, ?_⟩
        · show serverDelete st.backend (deleteParams bsp) ++ [echoRecord c]
            = ((B1 ++ B2) ++ [c]).map echoRecord
          rw [hsd, List.map_append, List.map_append]
          rfl
        · intro b hb
          rcases List.mem_append.mp hb with h1 | h1
          · rcases List.mem_append.mp h1 with h2 | h2
            · refine hBg b ?_
              rw [hBdec]
              exact List.mem_append_left _ h2
            · refine hBg b ?_
              rw [hBdec]
              exact List.mem_append_right _ (List.mem_cons_of_mem _ h2)
          · rw [List.mem_singleton.mp h1]
            exact hg
        · apply List.pairwise_append.mpr
          refine ⟨?_, pairwise_single _ _, ?_⟩
          · refine List.Pairwise.sublist ?_ hBpw
            rw [hBdec]
            exact List.Sublist.append (List.Sublist.refl B1) (List.sublist_cons_self bsp B2)
          · intro x hx y hy
            rw [List.mem_singleton.mp hy]
            exact hsurvne x hx
      · refine ⟨surv.filter (fun bb => !(recordMatches bb (deleteParams bsp))),
          E.filter (fun e2 => !(recordMatches (echoRecord e2) (deleteParams bsp))) ++ [c],
          ?_, ?_, ?_⟩
        · show serverDelete st.backend (deleteParams bsp) ++ [echoRecord c]
            = surv.filter (fun bb => !(recordMatches bb (deleteParams bsp)))
              ++ (E.filter (fun e2 => !(recordMatches (echoRecord e2) (deleteParams bsp)))
                  ++ [c]).map echoRecord
          have hserv : serverDelete st.backend (deleteParams bsp)
              = surv.filter (fun bb => !(recordMatches bb (deleteParams bsp)))
                ++ (E.filter (fun e2 =>
                    !(recordMatches (echoRecord e2) (deleteParams bsp)))).map echoRecord := by
            show st.backend.filter (fun bb => !(recordMatches bb (deleteParams bsp))) = _
            rw [hSE, List.filter_append, filter_map_comm]
          rw [hserv, List.map_append, List.append_assoc]
          rfl
        · exact List.Sublist.trans (List.filter_sublist surv) hsurv
        · exact List.Sublist.append
            (List.Sublist.trans (List.filter_sublist E) hE) (List.Sublist.refl [c])
      · intro c2 hc2
        rcases List.mem_append.mp hc2 with h1 | h1
        · obtain ⟨b0, hb0, hb0nu⟩ := hconv c2 h1
          refine ⟨b0, ?_, hb0nu⟩
          show (serverDelete st.backend (deleteParams bsp)
              ++ [echoRecord c]).find? (bkeyIs c2.name c2.type) = some b0
          apply find?_append_some
          show (st.backend.filter
              (fun bb => !(recordMatches bb (deleteParams bsp)))).find?
                (bkeyIs c2.name c2.type) = some b0
          apply find?_filter_preserve hb0
          cases hm : recordMatches b0 (deleteParams bsp) with
          | false => simp [hm]
          | true =>
            exfalso
            have hm2 := hm
            unfold recordMatches at hm2
            rw [deleteParams_getF_domain, deleteParams_getF_type, hrn, hrt, hbn, hbt] at hm2
            have hkeyb0 : bkeyIs c.name c.type b0 = true := (and_true_split hm2).1
            exact bkey_both_contradiction hg hkeyb0 (find?_prop hb0) (hne c2 h1)
        · rw [List.mem_singleton.mp h1]
          refine ⟨echoRecord c, ?_, echo_noUpdate hg⟩
          show (serverDelete st.backend (deleteParams bsp)
              ++ [echoRecord c]).find? (bkeyIs c.name c.type) = some (echoRecord c)
          rw [hsd]
          have hnone12 : (B1.map echoRecord ++ B2.map echoRecord).find?
              (bkeyIs c.name c.type) = none := by
            apply find?_eq_none_of_all
            intro x hx
            rcases List.mem_append.mp hx with h2 | h2
            · obtain ⟨e2, he2, rfl⟩ := List.mem_map.mp h2
              exact bkey_echo_false_of_KeyNe (hsurvne e2 (List.mem_append_left _ he2))
            · obtain ⟨e2, he2, rfl⟩ := List.mem_map.mp h2
              exact bkey_echo_false_of_KeyNe (hsurvne e2 (List.mem_append_right _ he2))
          rw [find?_append_none _ hnone12]
          exact List.find?_cons_of_pos _ (bkey_echo_self hg)

/-- The convergence invariant is maintained along the whole batch loop over a
remaining list of pairwise-key-distinct good specs whose keys also differ from
every already-processed spec, given that the converted ids of the initial
backend together with the echoes of the full desired list are pairwise
distinct. -/
theorem recon_run {init0 : List JSValue} {D : List DNSRecord}
    (hdistU : DistinctIds (init0 ++ D.map echoRecord)) :
    ∀ (L : List DNSRecord) (st : ProviderState) (done : List DNSRecord)
      (res : List DNSRecord),
      D = done ++ L →
      ReconInv init0 st done →
      (∀ c ∈ L, GoodSpec c) →
      (∀ c ∈ L, ∀ c2 ∈ done, KeyNe c c2) →
      L.Pairwise KeyNe →
      ∃ res2 st2 tr, batchLoop st res L = (res2, st2, tr) ∧
        ReconInv init0 st2 (done ++ L) := by
  intro L
  induction L with
  | nil =>
    intro st done res hD hinv hgood hne hpw
    refine ⟨res, st, [], rfl, ?_⟩
    rw [List.append_nil]
    exact hinv
  | cons c cs ih =>
    intro st done res hD hinv hgood hne hpw
    have hdistB : DistinctIds st.backend := by
      obtain ⟨-, -, -, -, ⟨surv, E, hSE, hsurv, hEdone⟩, -⟩ := hinv
      have hdone : done.Sublist D := by
        rw [hD]
        exact List.sublist_append_left done (c :: cs)
      have hED : E.Sublist D := hEdone.trans hdone
      have hsub : st.backend.Sublist (init0 ++ D.map echoRecord) := by
        rw [hSE]
        exact List.Sublist.append hsurv (List.Sublist.map echoRecord hED)
      exact List.Pairwise.sublist hsub hdistU
    obtain ⟨res2, st2, tr, hpc, hinv2⟩ :=
      recon_step res hinv (hgood c (List.mem_cons_self c cs))
        (fun c2 hc2 => hne c (List.mem_cons_self c cs) c2 hc2) hdistB
    have hD2 : D = (done ++ [c]) ++ cs := by
      rw [hD, List.append_assoc]
      rfl
    have hne2 : ∀ c2 ∈ cs, ∀ c3 ∈ done ++ [c], KeyNe c2 c3 := by
      intro c2 hc2 c3 hc3
      rcases List.mem_append.mp hc3 with h1 | h1
      · exact hne c2 (List.mem_cons_of_mem c hc2) c3 h1
      · rw [List.mem_singleton.mp h1]
        exact KeyNe_symm ((List.pairwise_cons.mp hpw).1 c2 hc2)
    obtain ⟨res3, st3, tr3, hbl, hinv3⟩ :=
      ih st2 (done ++ [c]) res2 hD2 hinv2
        (fun c2 hc2 => hgood c2 (List.mem_cons_of_mem c hc2)) hne2
        (List.pairwise_cons.mp hpw).2
    refine ⟨res3, st3, tr ++ tr3, ?_, ?_⟩
    · have h1 : (processConfig st res c).1 = res2 := by rw [hpc]
      have h2 : (processConfig st res c).2.1 = st2 := by rw [hpc]
      have h3 : (processConfig st res c).2.2 = tr := by rw [hpc]
      rw [batchLoop_cons, h1, h2, h3, hbl]
    · have hinv4 : ReconInv init0 st3 (done ++ ([c] ++ cs)) := by
        rw [← List.append_assoc]
        exact hinv3
      exact hinv4

/-- C1, amended: starting from a stale cache (so the run begins with a
refresh), batch convergence is idempotent for desired sets whose specs all
have round-trippable types (A, AAAA, CNAME, ANAME, TXT) with nonempty string
name and content, falsy or non-negative numeric ttl, and pairwise-distinct
(name, type) identity keys, when the initial backend consists of echoes of
well-formed specs with pairwise-distinct identity keys, the converted ids of
the initial backend records together with the echoes of the desired specs are
pairwise distinct, and every backend call succeeds: the first run returns
normally and the second run over the same desired set performs no outbound
call of any kind and leaves the state untouched. -/
theorem c1_amended_idempotence (st : ProviderState) (D : List DNSRecord)
    (hfresh : st.fresh = false)
    (hresp : st.responses = [])
    (hwf : ∃ B0 : List DNSRecord, st.backend = B0.map echoRecord ∧
      (∀ b ∈ B0, GoodSpec b) ∧ B0.Pairwise KeyNe)
    (hdistU : DistinctIds (st.backend ++ D.map echoRecord))
    (hgood : ∀ c ∈ D, GoodSpec c)
    (hpw : D.Pairwise KeyNe) :
    ∃ res st1 tr, batchEnsureRecords st D = .ok res st1 tr ∧
      batchEnsureRecords st1 D = .ok [] st1 [] := by
  cases D with
  | nil => exact ⟨[], st, [], rfl, rfl⟩
  | cons c cs =>
    have hget : getRecordsFromCache st = .ok (st.backend.map convertToStandardFormat)
        { st with cacheRecords := st.backend.map convertToStandardFormat,
                  fresh := true, responses := [] } [.apiList] := by
      unfold getRecordsFromCache refreshRecordCache
      rw [hfresh, hresp]
      rfl
    obtain ⟨B0, hB0, hB0g, hB0pw⟩ := hwf
    have hinv : ReconInv st.backend
        { st with cacheRecords := st.backend.map convertToStandardFormat,
                  fresh := true, responses := [] } [] := by
      refine ⟨rfl, rfl, rfl, ⟨B0, hB0, hB0g, hB0pw⟩,
        ⟨st.backend, [], ?_, List.Sublist.refl st.backend, List.Sublist.refl []⟩, ?_⟩
      · show st.backend = st.backend ++ ([] : List DNSRecord).map echoRecord
        rw [List.map_nil, List.append_nil]
      · intro c2 hc2
        exact absurd hc2 (List.not_mem_nil c2)
    obtain ⟨res2, st2, tr2, hbl, hinv2⟩ :=
      recon_run hdistU (c :: cs)
        { st with cacheRecords := st.backend.map convertToStandardFormat,
                  fresh := true, responses := [] } [] [] rfl hinv hgood
        (fun c2 hc2 c3 hc3 => absurd hc3 (List.not_mem_nil c3)) hpw
    obtain ⟨hfr2, hresp2, hcache2, -, -, hconv2⟩ := hinv2
    refine ⟨res2, st2, [Ev.apiList] ++ tr2, ?_, ?_⟩
    · rw [batchEnsureRecords_cons_ok c cs hget, hbl]
    · exact batch_skip hfr2 hcache2 (fun c2 hc2 => hconv2 c2 hc2)

/-- C1, witness for the amended idempotence theorem: the single-A-record
desired set over an empty stale-cache state satisfies every hypothesis, so
the first batch run succeeds and the second is a no-op. -/
theorem c1_witness :
    ∃ res st1 tr, batchEnsureRecords emptyStaleState [appSpec] = .ok res st1 tr ∧
      batchEnsureRecords st1 [appSpec] = .ok [] st1 [] := by
  apply c1_amended_idempotence emptyStaleState [appSpec] rfl rfl
  · exact ⟨[], rfl, fun b hb => absurd hb (List.not_mem_nil b), List.Pairwise.nil⟩
  · exact pairwise_single _ _
  · intro c hc
    rw [List.mem_singleton.mp hc]
    exact ⟨Or.inl rfl, ⟨"app.example.com", rfl, by decide⟩,
      ⟨"1.2.3.4", rfl, by decide⟩, Or.inr ⟨300, by omega, rfl⟩⟩
  · exact pairwise_single KeyNe appSpec
